import Mathlib

/-!
Verification development for the travelr hot-reload subsystem.

The subject programs are scripts/relaunch.ts (the Relaunch Supervisor:
zip validation, file materialization, install/build/restart with
safe-vs-unsafe failure classification and the port-80 status server)
and scripts/create-quick-deploy-zip.ts (the deployment package builder).

Modelling conventions (shallow embedding):
* Byte buffers are List Nat (one Nat per byte, values < 256 in real inputs).
* Zip entry names are kept as their raw UTF-8 bytes (Buffer.toString and
  the JS string comparisons in the source agree with byte-list equality on
  the names the source compares: "package.json" is ASCII, and a name ends
  in "/" iff its last byte is 47).
* External effects (shutdown polling, listen(80) outcome, filesystem
  write/stat outcomes, execSync npm install / npm run build, spawn of the
  new server, zlib.inflateRawSync, and the md5 function itself) are
  oracles supplied in an Env record; the supervisor's control flow over
  those oracles is translated from the source.
* The md5 digest is an abstract function parameter: every claim about it
  only depends on equality of digest strings.
* A thrown JS exception is an Except.error / explicit error result carrying
  the state at the throw; process.exit and the intentional infinite awaits
  ("hang forever") are terminal outcomes of the model.
* The session leaves an event trace; each event is paired with the value of
  appDirectoryModified at the moment it is emitted, which is what the
  temporal claims about that flag quantify over.
-/

/-! ## Zip parsing: parseZipInMemory (relaunch.ts lines 241-297) -/

/-- One decoded zip entry, as relaunch.ts's ZipEntry: the file name bytes and
the (decompressed) data bytes. -/
structure ZipEntry where
  fileName : List Nat
  data : List Nat
deriving DecidableEq, Repr

/-- The distinct throw sites of parseZipInMemory: the md5 gate, a Buffer read
past the end of the buffer (Node RangeError), an unsupported compression
method, and a zlib.inflateRawSync failure. -/
inductive ZipErr where
  | integrity (expected actual : String)
  | range
  | unsupportedMethod (m : Nat)
  | inflateFail
deriving DecidableEq, Repr

/-- Buffer.readUInt16LE: two little-endian bytes, throwing (none) when the
read would pass the end of the buffer. -/
def read16 (b : List Nat) (i : Nat) : Option Nat :=
  if i + 2 ≤ b.length then some (b.getD i 0 + 256 * b.getD (i + 1) 0) else none

/-- Buffer.readUInt32LE: four little-endian bytes, throwing (none) when the
read would pass the end of the buffer. -/
def read32 (b : List Nat) (i : Nat) : Option Nat :=
  if i + 4 ≤ b.length then
    some (b.getD i 0 + 256 * b.getD (i + 1) 0 + 65536 * b.getD (i + 2) 0 +
      16777216 * b.getD (i + 3) 0)
  else none

/-- Buffer.subarray / Buffer.toString range semantics: both ends are clamped
to the buffer, never throwing. -/
def sliceClamped (b : List Nat) (start stop : Nat) : List Nat :=
  (b.drop start).take (stop - start)

/-- fileName.endsWith("/") on the raw name bytes: 47 is the code of "/". -/
def endsWithSlash (name : List Nat) : Bool :=
  name.getLast? == some 47

/-- The while loop of parseZipInMemory. The source loop advances offset by
at least 30 bytes per iteration, so it iterates at most length/30 + 1 times;
the fuel argument (instantiated with length + 1 by parseZipInMemory) is a
structural-termination device that is never exhausted before the loop's own
exit conditions fire: each recursive call's new offset dataStart +
compressedSize is at least offset + 30, so after length + 1 steps the
offset + 30 > length check has fired. Out of fuel it returns what the
exhausted loop would: the entries collected so far. -/
def parseLoop (inflate : List Nat → Option (List Nat)) (b : List Nat) :
    Nat → Nat → List ZipEntry → Except ZipErr (List ZipEntry)
  | 0, _, acc => Except.ok acc.reverse
  | fuel + 1, offset, acc =>
    if offset < b.length - 4 then
      -- local file header signature PK\x03\x04; a mismatch breaks the loop
      if !(b.getD offset 0 == 80 && b.getD (offset + 1) 0 == 75) then
        Except.ok acc.reverse
      else if !(b.getD (offset + 2) 0 == 3 && b.getD (offset + 3) 0 == 4) then
        Except.ok acc.reverse
      else
        match read16 b (offset + 8), read32 b (offset + 18),
            read16 b (offset + 26), read16 b (offset + 28) with
        | some compressionMethod, some compressedSize, some fileNameLength,
            some extraFieldLength =>
          let fileNameStart := offset + 30
          let fileName := sliceClamped b fileNameStart (fileNameStart + fileNameLength)
          let dataStart := fileNameStart + fileNameLength + extraFieldLength
          if endsWithSlash fileName then
            -- directories are skipped
            parseLoop inflate b fuel (dataStart + compressedSize) acc
          else
            let compressedData := sliceClamped b dataStart (dataStart + compressedSize)
            if compressionMethod == 0 then
              parseLoop inflate b fuel (dataStart + compressedSize)
                ({ fileName := fileName, data := compressedData } :: acc)
            else if compressionMethod == 8 then
              match inflate compressedData with
              | some fileData =>
                parseLoop inflate b fuel (dataStart + compressedSize)
                  ({ fileName := fileName, data := fileData } :: acc)
              | none => Except.error ZipErr.inflateFail
            else Except.error (ZipErr.unsupportedMethod compressionMethod)
        | _, _, _, _ => Except.error ZipErr.range
    else Except.ok acc.reverse

/-- parseZipInMemory (relaunch.ts 241-297): verify the md5 of the whole
buffer against the expected digest, throwing an integrity error on mismatch
before anything is decoded, then run the header-scanning loop. -/
def parseZipInMemory (md5 : List Nat → String) (inflate : List Nat → Option (List Nat))
    (zipBuffer : List Nat) (expectedMd5 : String) : Except ZipErr (List ZipEntry) :=
  let actualMd5 := md5 zipBuffer
  if actualMd5 ≠ expectedMd5 then Except.error (ZipErr.integrity expectedMd5 actualMd5)
  else parseLoop inflate zipBuffer (zipBuffer.length + 1) 0 []

/-! ## writeFileVerified (relaunch.ts 303-321) -/

/-- Decidable equality for Except values, needed so concrete runs of the
model can be settled by decide. -/
instance exceptDecEq {ε α : Type} [DecidableEq ε] [DecidableEq α] :
    DecidableEq (Except ε α) := fun x y =>
  match x, y with
  | Except.ok a, Except.ok b =>
    if h : a = b then Decidable.isTrue (by rw [h])
    else Decidable.isFalse (by intro q; cases q; exact h rfl)
  | Except.ok _, Except.error _ => Decidable.isFalse (by intro q; cases q)
  | Except.error _, Except.ok _ => Decidable.isFalse (by intro q; cases q)
  | Except.error a, Except.error b =>
    if h : a = b then Decidable.isTrue (by rw [h])
    else Decidable.isFalse (by intro q; cases q; exact h rfl)

/-- The filesystem's behaviour for one writeFileVerified call: whether
fs.mkdirSync and fs.writeFileSync throw (carrying String(err)), and what
fs.statSync returns for the destination afterwards (the on-disk size, or a
throw). -/
structure FsWriteEnv where
  mkdirThrow : Option String
  writeThrow : Option String
  statOutcome : Except String Nat
deriving DecidableEq, Repr

/-- The source's result record: ok plus an optional error string. -/
structure WriteResult where
  ok : Bool
  error : Option String
deriving DecidableEq, Repr

/-- writeFileVerified: mkdir the parent, write the file, stat it back and
compare sizes; the whole body is wrapped in try/catch, so every thrown
filesystem error comes back as ok := false with the error string, and the
function itself is total (it never throws). -/
def writeFileVerified (fse : FsWriteEnv) (data : List Nat) : WriteResult :=
  match fse.mkdirThrow with
  | some e => { ok := false, error := some e }
  | none =>
    match fse.writeThrow with
    | some e => { ok := false, error := some e }
    | none =>
      match fse.statOutcome with
      | Except.error e => { ok := false, error := some e }
      | Except.ok size =>
        if size ≠ data.length then
          { ok := false,
            error := some ("Size mismatch: wrote " ++ toString data.length ++
              ", got " ++ toString size) }
        else { ok := true, error := none }

/-! ## packageJsonChangedInZip (relaunch.ts 326-337) -/

/-- The UTF-8 bytes of "package.json". -/
def pkgJsonBytes : List Nat := [112, 97, 99, 107, 97, 103, 101, 46, 106, 115, 111, 110]

/-- packageJsonChangedInZip: find the top-level package.json entry in the
decoded zip; no entry means no install; an entry with no package.json on
disk means install; otherwise compare contents. The on-disk file is the
diskPackageJson oracle (none models fs.existsSync false). -/
def packageJsonChangedInZip (entries : List ZipEntry) (diskPackageJson : Option (List Nat)) :
    Bool :=
  match entries.find? (fun e => e.fileName == pkgJsonBytes) with
  | none => false
  | some pkgEntry =>
    match diskPackageJson with
    | none => true
    | some oldPkg => !(oldPkg == pkgEntry.data)

/-! ## The session model: events, state, environment -/

/-- The observable events of one relaunch session, in the order main() logs
and performs them. Write events carry the entry name; wroteOk / wroteErr are
the only events corresponding to a writeFileVerified call against the
managed tree. -/
inductive Event where
  | shutdownTimeout
  | shutdownDone
  | listenerSkippedTest
  | listenerStarted
  | listenerBindWarn
  | listenerStopped
  | listenerRestartAttempt
  | parsed (n : Nat)
  | diffChecked (changed : Bool)
  | pointOfNoReturn
  | testWouldWrite (name : List Nat)
  | wroteOk (name : List Nat)
  | wroteErr (name : List Nat)
  | installWouldRun
  | installRan
  | buildWouldRun
  | buildRan
  | serverSpawned
  | serverSpawnFailed
  | relaunchComplete
  | fatalLogged
  | hangForever
  | safeRestartMsg
  | restartedAfterSafeFailure
deriving DecidableEq, Repr

/-- The supervisor's mutable state: appDirectoryModified, whether the
statusServer variable is non-null, and the trace of events so far, each
paired with the value of appDirectoryModified at the moment it happened. -/
structure St where
  flag : Bool
  statusServer : Bool
  trace : List (Bool × Event)
deriving DecidableEq, Repr

/-- Record an event at the current value of appDirectoryModified. -/
def emit (s : St) (e : Event) : St :=
  { s with trace := s.trace ++ [(s.flag, e)] }

/-- The outcome of statusServer.listen(80): success; EACCES / EADDRINUSE,
which the source logs as a warning and resolves with statusServer = null;
or any other error, which rejects the promise (a throw at the await). -/
inductive BindResult where
  | ok
  | warn
  | reject
deriving DecidableEq, Repr

/-- The whole environment of one session: the oracles for every external
effect of relaunch.ts, plus the command-line inputs. -/
structure Env where
  shutdownOk : Bool
  testMode : Bool
  bind0 : BindResult
  md5 : List Nat → String
  inflate : List Nat → Option (List Nat)
  zipBytes : List Nat
  expectedMd5 : String
  diskPackageJson : Option (List Nat)
  fsFor : List Nat → FsWriteEnv
  installOk : Bool
  buildOk : Bool
  spawnOk : Bool
  rebind : BindResult

/-- startStatusServer (relaunch.ts 86-120): assign statusServer, then either
listen successfully, tolerate EACCES / EADDRINUSE by nulling statusServer and
resolving, or reject (statusServer stays assigned, the caller sees a throw). -/
def startStatusServer (b : BindResult) (s : St) : Except St St :=
  match b with
  | BindResult.ok => Except.ok (emit { s with statusServer := true } Event.listenerStarted)
  | BindResult.warn => Except.ok (emit { s with statusServer := false } Event.listenerBindWarn)
  | BindResult.reject => Except.error { s with statusServer := true }

/-- stopStatusServer (relaunch.ts 122-143): a no-op when statusServer is
null, otherwise close it and null the variable. -/
def stopStatusServer (s : St) : St :=
  if s.statusServer then emit { s with statusServer := false } Event.listenerStopped else s

/-- The three ways launchServerWithRecovery can end: the spawn succeeded
(returns true); the spawn failed and the function hangs forever after the
status-server restart attempt; or that restart attempt itself rejected and
the exception propagates to the caller. -/
inductive RecResult where
  | ok (s : St)
  | hang (s : St)
  | threw (s : St)
deriving DecidableEq, Repr

/-- launchServerWithRecovery (relaunch.ts 156-191): stop the status server,
try to spawn the real server; on success return; on failure restart the
status server unconditionally and hang forever (whether or not the restart
managed to bind), unless the restart itself rejects, in which case the
rejection propagates. -/
def launchServerWithRecovery (env : Env) (s : St) : RecResult :=
  let s := stopStatusServer s
  if env.spawnOk then RecResult.ok (emit s Event.serverSpawned)
  else
    let s := emit s Event.serverSpawnFailed
    let s := emit s Event.listenerRestartAttempt
    match startStatusServer env.rebind s with
    | Except.ok s2 => RecResult.hang s2
    | Except.error s2 => RecResult.threw s2

/-- One execSync step (npm install at 416-424, npm run build at 426-432):
in test mode only log the would-run line; otherwise run it, throwing when
the subprocess fails. -/
def execStep (test : Bool) (stepOk : Bool) (wouldEv ranEv : Event) (s : St) : Except St St :=
  if test then Except.ok (emit s wouldEv)
  else
    let s := emit s ranEv
    if stepOk then Except.ok s else Except.error s

/-- The write loop of main() step 5 (relaunch.ts 392-408): per entry, in
test mode log only; otherwise call writeFileVerified and count failures. -/
def writeLoop (env : Env) (entries : List ZipEntry) (s : St) : St × Nat :=
  match entries with
  | [] => (s, 0)
  | e :: rest =>
    if env.testMode then
      writeLoop env rest (emit s (Event.testWouldWrite e.fileName))
    else
      if (writeFileVerified (env.fsFor e.fileName) e.data).ok then
        writeLoop env rest (emit s (Event.wroteOk e.fileName))
      else
        let w := writeLoop env rest (emit s (Event.wroteErr e.fileName))
        (w.1, w.2 + 1)

/-- How the try block of main() ends: fell off the end (the process then
exits 0), called process.exit(1), hangs forever inside
launchServerWithRecovery, or threw (the catch block runs). -/
inductive TryResult where
  | completed (s : St)
  | exited1 (s : St)
  | hung (s : St)
  | threw (s : St)
deriving DecidableEq, Repr

/-- Step 6 of main() (relaunch.ts 416-424): npm install, run only when the
diff check asked for it. -/
def installStep (env : Env) (needsInstall : Bool) (s : St) : Except St St :=
  if needsInstall then
    execStep env.testMode env.installOk Event.installWouldRun Event.installRan s
  else Except.ok s

/-- Step 8 of main() (relaunch.ts 434-453): launchServerWithRecovery, then
the completion logging and zip cleanup of the success path; a hang inside
the recovery never returns, and a throw out of it reaches the catch. -/
def launchStep (env : Env) (s : St) : TryResult :=
  match launchServerWithRecovery env s with
  | RecResult.ok s2 => TryResult.completed (emit s2 Event.relaunchComplete)
  | RecResult.hang s2 => TryResult.hung s2
  | RecResult.threw s2 => TryResult.threw s2

/-- Steps 5-8 of main() (relaunch.ts 377-453): set appDirectoryModified
(outside test mode) just before the write loop, write every entry, throw if
any write failed, then the install, build and launch steps. -/
def deployAndLaunch (env : Env) (needsInstall : Bool) (entries : List ZipEntry) (s : St) :
    TryResult :=
  let s := if env.testMode then s else emit { s with flag := true } Event.pointOfNoReturn
  let wl := writeLoop env entries s
  if wl.2 > 0 then TryResult.threw wl.1
  else
    match installStep env needsInstall wl.1 with
    | Except.error s2 => TryResult.threw s2
    | Except.ok s2 =>
      match execStep env.testMode env.buildOk Event.buildWouldRun Event.buildRan s2 with
      | Except.error s3 => TryResult.threw s3
      | Except.ok s3 => launchStep env s3

/-- Steps 3-4 of main() (relaunch.ts 367-375): parse the zip in memory
(its throws reach the catch with the state unchanged), log the entry count,
run the package.json diff check, then deploy. -/
def pipelineAfterListener (env : Env) (s : St) : TryResult :=
  match parseZipInMemory env.md5 env.inflate env.zipBytes env.expectedMd5 with
  | Except.error _ => TryResult.threw s
  | Except.ok entries =>
    let s := emit s (Event.parsed entries.length)
    let needsInstall := packageJsonChangedInZip entries env.diskPackageJson
    let s := emit s (Event.diffChecked needsInstall)
    deployAndLaunch env needsInstall entries s

/-- The try block of main() (relaunch.ts 351-453): wait for shutdown
(process.exit(1) on timeout), start the status server (skipped with a log
line in test mode; a listen rejection throws), then the validate / diff /
deploy pipeline. -/
def tryBody (env : Env) : TryResult :=
  let s : St := { flag := false, statusServer := false, trace := [] }
  if !env.shutdownOk then TryResult.exited1 (emit s Event.shutdownTimeout)
  else
    let s := emit s Event.shutdownDone
    if env.testMode then pipelineAfterListener env (emit s Event.listenerSkippedTest)
    else
      match startStatusServer env.bind0 s with
      | Except.error s2 => TryResult.threw s2
      | Except.ok s2 => pipelineAfterListener env s2

/-- How the supervisor process ends: exit 0, exit 1, hang forever
(intentional await of a never-resolving promise), or crash (an exception
escaped main(); Node terminates on the unhandled rejection). -/
inductive Outcome where
  | exit0
  | exit1
  | hang
  | crash
deriving DecidableEq, Repr

/-- main() with its catch block (relaunch.ts 339-495): on a throw, log the
fatal error; with appDirectoryModified true, hang forever (keeping whatever
status server exists, without restarting anything); with it false, restart
the prior server via launchServerWithRecovery and exit 1 on success; a
throw out of that recovery escapes main() entirely. -/
def runMain (env : Env) : Outcome × St :=
  match tryBody env with
  | TryResult.completed s => (Outcome.exit0, s)
  | TryResult.exited1 s => (Outcome.exit1, s)
  | TryResult.hung s => (Outcome.hang, s)
  | TryResult.threw s =>
    let s := emit s Event.fatalLogged
    if s.flag then (Outcome.hang, emit s Event.hangForever)
    else
      let s := emit s Event.safeRestartMsg
      match launchServerWithRecovery env s with
      | RecResult.ok s2 => (Outcome.exit1, emit s2 Event.restartedAfterSafeFailure)
      | RecResult.hang s2 => (Outcome.hang, s2)
      | RecResult.threw s2 => (Outcome.crash, s2)

/-- The state carried by a TryResult. -/
def trState : TryResult → St
  | TryResult.completed s => s
  | TryResult.exited1 s => s
  | TryResult.hung s => s
  | TryResult.threw s => s

/-- The state carried by a RecResult. -/
def recState : RecResult → St
  | RecResult.ok s => s
  | RecResult.hang s => s
  | RecResult.threw s => s

/-- The state carried by an Except-valued step (the state at the return or
at the throw). -/
def exState : Except St St → St
  | Except.ok s => s
  | Except.error s => s

/-! ## The package builder: createDeploymentZip
(scripts/create-quick-deploy-zip.ts 35-109; the archiver variant in the
repository has the same whitelist, the same explicit file list and the same
insertion order). An entry's metadata (the mtime field) comes from the
source file's stat, never from the clock, which is what makes the build
reproducible; the clock is still passed in as an explicit oracle so that
independence from it is a statement, not an assumption. -/

/-- A source file's bytes together with its stat mtime (the only metadata
adm-zip copies into the entry header). -/
structure FileData where
  content : List Nat
  mtime : Nat
deriving DecidableEq, Repr

/-- A directory tree as fs.readdirSync enumerates it: files and
subdirectories in the listing order of the filesystem state. -/
inductive FsNode where
  | file (name : String) (fd : FileData)
  | dir (name : String) (children : List FsNode)
deriving Repr

/-- The filesystem state the builder reads: the three whitelisted source
directories, and a lookup for the explicitly added fixed files. -/
structure SourceTree where
  serverSrc : List FsNode
  clientSrc : List FsNode
  scriptsDir : List FsNode
  fileAt : String → Option FileData

/-- path.posix.join of a directory and an entry name, as the builder forms
both zip paths and (modelled with posix separators) disk paths. -/
def pjoin (a b : String) : String := a ++ "/" ++ b

/-- Whether pat occurs as a contiguous substring of the character list. -/
def containsSub (pat : List Char) : List Char → Bool
  | [] => pat.isEmpty
  | c :: rest => pat.isPrefixOf (c :: rest) || containsSub pat rest

/-- path.basename (posix model): the last "/"-separated segment. -/
def basenameOf (p : String) : String :=
  (p.splitOn "/").getLastD p

/-- The index of the last "." in a character list. -/
def lastDotIdx (cs : List Char) : Option Nat :=
  match cs.reverse.findIdx? (fun c => c == '.') with
  | none => none
  | some j => some (cs.length - 1 - j)

/-- path.extname: the suffix of the basename from its last dot, empty when
there is no dot or the dot is the leading character. -/
def extnameOf (p : String) : String :=
  let b := (basenameOf p).toList
  match lastDotIdx b with
  | none => ""
  | some 0 => ""
  | some i => String.mk (b.drop i)

/-- The builder's fixed extension allow-list. -/
def allowedExtensions : List String := [".ts", ".svg"]

/-- The builder's fixed filename allow-list. -/
def allowedFiles : List String := ["package.json", "package-lock.json", "tsconfig.json", "index.html"]

/-- name.startsWith("TEST_"). -/
def startsWithTEST (s : String) : Bool :=
  "TEST_".toList.isPrefixOf s.toList

/-- The regular expression test for a TEST_ path segment after either
separator. -/
def hasTestSegment (p : String) : Bool :=
  containsSub "/TEST_".toList p.toList || containsSub "\\TEST_".toList p.toList

/-- shouldInclude (create-quick-deploy-zip.ts 56-64): exclude anything in a
TEST_ directory or itself named TEST_*, then allow by extension or by exact
basename. -/
def shouldInclude (filePath : String) : Bool :=
  if hasTestSegment filePath || startsWithTEST (basenameOf filePath) then false
  else allowedExtensions.contains (extnameOf filePath) ||
    allowedFiles.contains (basenameOf filePath)

mutual

/-- addDirectory's per-entry work (create-quick-deploy-zip.ts 66-82): a
TEST_ subdirectory is skipped whole; other subdirectories recurse with the
extended disk and zip paths; a file is added at zipDir/name when
shouldInclude accepts its full disk path. -/
def addDirNode (dirPath zipDir : String) : FsNode → List (String × FileData)
  | FsNode.file name fd =>
    if shouldInclude (pjoin dirPath name) then [(pjoin zipDir name, fd)] else []
  | FsNode.dir name children =>
    if startsWithTEST name then []
    else addDirChildren (pjoin dirPath name) (pjoin zipDir name) children

/-- addDirectory's fold over a readdirSync listing, preserving its order. -/
def addDirChildren (dirPath zipDir : String) : List FsNode → List (String × FileData)
  | [] => []
  | n :: rest => addDirNode dirPath zipDir n ++ addDirChildren dirPath zipDir rest

end

/-- zip.addLocalFile for one of the explicitly listed files: reads the file,
throwing (Except.error) when it does not exist, and records the entry under
the given zip name. -/
def addLocalFile (t : SourceTree) (srcPath zipName : String) :
    Except String (String × FileData) :=
  match t.fileAt srcPath with
  | none => Except.error ("ENOENT: no such file " ++ srcPath)
  | some fd => Except.ok (zipName, fd)

set_option linter.unusedVariables false in
/-- createDeploymentZip (create-quick-deploy-zip.ts 35-109): the three
filtered directory walks followed by the ten explicitly added files, in the
source's insertion order. The produced package is the ordered entry list;
now models Date.now() at build time and is deliberately never consulted
(entry metadata comes from each file's mtime), which theorem
c8_builder_deterministic turns into the determinism statement. -/
def createDeploymentZip (now : Nat) (t : SourceTree) :
    Except String (List (String × FileData)) := do
  let dirEntries :=
    addDirChildren "server/src" "server/src" t.serverSrc ++
    addDirChildren "client/src" "client/src" t.clientSrc ++
    addDirChildren "scripts" "scripts" t.scriptsDir
  let rootPkg ← addLocalFile t "package.json" "package.json"
  let rootLock ← addLocalFile t "package-lock.json" "package-lock.json"
  let rootTsBase ← addLocalFile t "tsconfig.base.json" "tsconfig.base.json"
  let serverPkg ← addLocalFile t "server/package.json" "server/package.json"
  let serverTs ← addLocalFile t "server/tsconfig.json" "server/tsconfig.json"
  let clientPkg ← addLocalFile t "client/package.json" "client/package.json"
  let clientTs ← addLocalFile t "client/tsconfig.json" "client/tsconfig.json"
  let clientHtml ← addLocalFile t "client/index.html" "client/index.html"
  let clientVite ← addLocalFile t "client/vite.config.ts" "client/vite.config.ts"
  let promptMd ← addLocalFile t "dataConfig/prompt-template.md" "dataConfig/prompt-template.md"
  Except.ok (dirEntries ++ [rootPkg, rootLock, rootTsBase, serverPkg, serverTs,
    clientPkg, clientTs, clientHtml, clientVite, promptMd])

/-! ## Concrete inputs for witnesses and counterexamples -/

/-- A minimal well-formed zip buffer: one stored entry named "a" (byte 97),
data the single byte 120, declared compressed size 1, 32 bytes total. -/
def zipOneEntry : List Nat :=
  [80, 75, 3, 4, 0, 0, 0, 0, 0, 0, 0, 0, 0, 0, 0, 0, 0, 0,
   1, 0, 0, 0, 1, 0, 0, 0, 1, 0, 0, 0, 97, 120]

/-- The same single-entry zip truncated inside the entry's data: the header
declares compressed size 10, but only one data byte is present (the buffer
ends after byte 120). -/
def zipTruncated : List Nat :=
  [80, 75, 3, 4, 0, 0, 0, 0, 0, 0, 0, 0, 0, 0, 0, 0, 0, 0,
   10, 0, 0, 0, 10, 0, 0, 0, 1, 0, 0, 0, 97, 120]

/-- A zip whose single entry declares compression method 5, which
parseZipInMemory rejects as unsupported. -/
def zipUnsupported : List Nat :=
  [80, 75, 3, 4, 0, 0, 0, 0, 5, 0, 0, 0, 0, 0, 0, 0, 0, 0,
   1, 0, 0, 0, 1, 0, 0, 0, 1, 0, 0, 0, 97, 120]

/-- A zip whose single stored entry is named "package.json" with the one
data byte 120. -/
def zipWithPkgJson : List Nat :=
  [80, 75, 3, 4, 0, 0, 0, 0, 0, 0, 0, 0, 0, 0, 0, 0, 0, 0,
   1, 0, 0, 0, 1, 0, 0, 0, 12, 0, 0, 0] ++ pkgJsonBytes ++ [120]

/-- A filesystem oracle under which a 1-byte write succeeds and verifies. -/
def fsAllOk : FsWriteEnv :=
  { mkdirThrow := none, writeThrow := none, statOutcome := Except.ok 1 }

/-- The happy-path session environment: shutdown observed, port 80 bound,
a matching digest over zipOneEntry, all writes verify, install and build
succeed, the new server spawns. -/
def baseEnv : Env :=
  { shutdownOk := true
    testMode := false
    bind0 := BindResult.ok
    md5 := fun _ => "d"
    inflate := fun _ => none
    zipBytes := zipOneEntry
    expectedMd5 := "d"
    diskPackageJson := none
    fsFor := fun _ => fsAllOk
    installOk := true
    buildOk := true
    spawnOk := true
    rebind := BindResult.ok }

/-- C1's counterexample environment: port 80 refused at bind (EACCES, the
source's tolerated warning case), and every file write fails, so the session
fails after the point of no return with no status server to hold open. -/
def envC1 : Env :=
  { baseEnv with
    bind0 := BindResult.warn
    fsFor := fun _ =>
      { mkdirThrow := some "Error: EACCES", writeThrow := none, statOutcome := Except.ok 1 } }

/-- C2's counterexample environment: a digest mismatch (safe failure) after
which the restart spawn itself fails, with the status-server restart binding
fine. -/
def envC2 : Env :=
  { baseEnv with md5 := fun _ => "a", spawnOk := false }

/-- C5's counterexample environment: the truncated package of zipTruncated
presented with the (matching) digest of its truncated bytes. -/
def envC5 : Env :=
  { baseEnv with zipBytes := zipTruncated }

/-- C5's amended-claim witness environment: a genuinely undecodable package
(unsupported compression method). -/
def envC5w : Env :=
  { baseEnv with zipBytes := zipUnsupported }

/-- C6's counterexample environment: safe failure (digest mismatch), then
the restart spawn fails and the status-server reopen rejects with an error
other than EACCES / EADDRINUSE. -/
def envC6 : Env :=
  { baseEnv with md5 := fun _ => "a", spawnOk := false, rebind := BindResult.reject }

/-- C7's counterexample environment: test mode with a valid package, but the
final server spawn fails, sending the recovery path through the status
server start it was supposed to skip. -/
def envC7 : Env :=
  { baseEnv with testMode := true, spawnOk := false }

/-- A test-mode happy-path environment (C7's amended-claim witness). -/
def envC7w : Env :=
  { baseEnv with testMode := true, zipBytes := zipWithPkgJson }

/-- C4's witness environment: declared digest that disagrees with the
digest of the staged bytes. -/
def envC4 : Env :=
  { baseEnv with expectedMd5 := "x" }

/-- C10's witness environment: a package whose single entry is a top-level
package.json while none exists on disk. -/
def envC10 : Env :=
  { baseEnv with zipBytes := zipWithPkgJson }

/-- The state at which envC1's session throws: after the failed write, with
appDirectoryModified true and no status server. -/
def stC1 : St :=
  { flag := true
    statusServer := false
    trace := [(false, Event.shutdownDone), (false, Event.listenerBindWarn),
      (false, Event.parsed 1), (false, Event.diffChecked false),
      (true, Event.pointOfNoReturn), (true, Event.wroteErr [97])] }

/-- The state at which envC2's session throws: after the digest mismatch,
with appDirectoryModified still false and the status server up. -/
def stC2 : St :=
  { flag := false
    statusServer := true
    trace := [(false, Event.shutdownDone), (false, Event.listenerStarted)] }

/-! ## Trace predicates for the temporal claims -/

/-- The events that are writeFileVerified calls against the managed tree. -/
def isWriteEv : Event → Bool
  | Event.wroteOk _ => true
  | Event.wroteErr _ => true
  | _ => false

/-- The events of the pre-mutation phases: the shutdown wait, package
validation, and the manifest diff check. -/
def isValidationEv : Event → Bool
  | Event.shutdownTimeout => true
  | Event.shutdownDone => true
  | Event.parsed _ => true
  | Event.diffChecked _ => true
  | _ => false

/-- The events launchServerWithRecovery can emit. -/
def isRecoveryEv : Event → Bool
  | Event.listenerStopped => true
  | Event.serverSpawned => true
  | Event.serverSpawnFailed => true
  | Event.listenerRestartAttempt => true
  | Event.listenerStarted => true
  | Event.listenerBindWarn => true
  | _ => false

/-- A trace entry from before the point of no return: the flag reads false,
it is not the transition, and it is not a managed-tree write. -/
def PreP (p : Bool × Event) : Prop :=
  p.1 = false ∧ p.2 ≠ Event.pointOfNoReturn ∧ isWriteEv p.2 = false

/-- A whole trace of pre-mutation entries. -/
def PreTrace (t : List (Bool × Event)) : Prop := ∀ p ∈ t, PreP p

/-- A managed-tree write entry: recorded under a true flag. -/
def WriteP (p : Bool × Event) : Prop :=
  p.1 = true ∧ isWriteEv p.2 = true

/-- A post-write-block entry: true flag, not the transition, not a write,
and not a validation-phase event. -/
def NeutP (p : Bool × Event) : Prop :=
  p.1 = true ∧ p.2 ≠ Event.pointOfNoReturn ∧ isWriteEv p.2 = false ∧
    isValidationEv p.2 = false

/-- A trace inside the write loop: a pre-mutation prefix, the single
transition entry, then write entries only. -/
def WriteTrace (t : List (Bool × Event)) : Prop :=
  ∃ a w, t = a ++ (true, Event.pointOfNoReturn) :: w ∧ PreTrace a ∧ ∀ p ∈ w, WriteP p

/-- A trace after the write loop: a pre-mutation prefix, the single
transition entry, the contiguous write block, then post entries only. -/
def PostTrace (t : List (Bool × Event)) : Prop :=
  ∃ a w r, t = a ++ (true, Event.pointOfNoReturn) :: (w ++ r) ∧ PreTrace a ∧
    (∀ p ∈ w, WriteP p) ∧ (∀ p ∈ r, NeutP p)

/-- The state invariant every reachable supervisor state satisfies: with the
flag still false the whole trace is pre-mutation; once it is true the trace
decomposes around the single transition entry. -/
def GoodTrace (fl : Bool) (t : List (Bool × Event)) : Prop :=
  (fl = false ∧ PreTrace t) ∨ (fl = true ∧ PostTrace t)

/-- What claim C3 asserts of a whole session trace: the flag is monotone
(a false-flag prefix then a true-flag suffix), the transition entry occurs
at most once and is the first true-flag entry, every managed-tree write sits
in the contiguous block directly after the transition, and every shutdown /
validation / diff event sits in the false-flag prefix. -/
def C3Shape (t : List (Bool × Event)) : Prop :=
  ∃ a b, t = a ++ b ∧ PreTrace a ∧
    (b = [] ∨ ∃ w r, b = (true, Event.pointOfNoReturn) :: (w ++ r) ∧
      (∀ p ∈ w, WriteP p) ∧ (∀ p ∈ r, NeutP p))

/-- The write event the real-mode write loop records for one entry. -/
def writeEvFor (env : Env) (e : ZipEntry) : Event :=
  if (writeFileVerified (env.fsFor e.fileName) e.data).ok then Event.wroteOk e.fileName
  else Event.wroteErr e.fileName

/-- C6's amended-claim witness environment: safe failure (digest mismatch),
restart spawn fails, status-server reopen binds. -/
def envC6w : Env :=
  { baseEnv with md5 := fun _ => "b", spawnOk := false }

/-- The state at which envC6w's session throws. -/
def stC6w : St :=
  { flag := false
    statusServer := true
    trace := [(false, Event.shutdownDone), (false, Event.listenerStarted)] }

/-- C1's relaunch-spawn-failure environment: a valid real-mode deploy whose
new-server spawn fails after the flag has become true. -/
def envC1r : Env :=
  { baseEnv with spawnOk := false }

/-- The state at which envC1r's session ends hung: the recovery has stopped
the listener and attempted exactly one reopen, which bound. -/
def stC1r : St :=
  { flag := true
    statusServer := true
    trace := [(false, Event.shutdownDone), (false, Event.listenerStarted),
      (false, Event.parsed 1), (false, Event.diffChecked false),
      (true, Event.pointOfNoReturn), (true, Event.wroteOk [97]),
      (true, Event.buildRan), (true, Event.listenerStopped),
      (true, Event.serverSpawnFailed), (true, Event.listenerRestartAttempt),
      (true, Event.listenerStarted)] }

/-! ## Basic lemmas about the state and trace combinators -/

theorem emit_flag (s : St) (e : Event) : (emit s e).flag = s.flag := rfl

theorem emit_statusServer (s : St) (e : Event) : (emit s e).statusServer = s.statusServer := rfl

theorem emit_trace (s : St) (e : Event) : (emit s e).trace = s.trace ++ [(s.flag, e)] := rfl

theorem preTrace_nil : PreTrace [] := by intro p hp; cases hp

theorem preTrace_append {t u : List (Bool × Event)} (ht : PreTrace t) (hu : PreTrace u) :
    PreTrace (t ++ u) := by
  intro p hp
  rcases List.mem_append.mp hp with h | h
  · exact ht p h
  · exact hu p h

theorem postTrace_append {t u : List (Bool × Event)} (ht : PostTrace t)
    (hu : ∀ p ∈ u, NeutP p) : PostTrace (t ++ u) := by
  obtain ⟨a, w, r, rfl, ha, hw, hr⟩ := ht
  refine ⟨a, w, r ++ u, ?_, ha, hw, ?_⟩
  · simp [List.append_assoc]
  · intro p hp
    rcases List.mem_append.mp hp with h | h
    · exact hr p h
    · exact hu p h

theorem writeTrace_append_writes {t u : List (Bool × Event)} (ht : WriteTrace t)
    (hu : ∀ p ∈ u, WriteP p) : WriteTrace (t ++ u) := by
  obtain ⟨a, w, rfl, ha, hw⟩ := ht
  refine ⟨a, w ++ u, ?_, ha, ?_⟩
  · simp [List.append_assoc]
  · intro p hp
    rcases List.mem_append.mp hp with h | h
    · exact hw p h
    · exact hu p h

theorem writeTrace_postTrace {t : List (Bool × Event)} (ht : WriteTrace t) : PostTrace t := by
  obtain ⟨a, w, rfl, ha, hw⟩ := ht
  exact ⟨a, w, [], by simp, ha, hw, by intro p hp; cases hp⟩

theorem preTrace_ponr {t : List (Bool × Event)} (ht : PreTrace t) :
    WriteTrace (t ++ [(true, Event.pointOfNoReturn)]) :=
  ⟨t, [], by simp, ht, by intro p hp; cases hp⟩

theorem goodTrace_append {fl : Bool} {t u : List (Bool × Event)} (h : GoodTrace fl t)
    (hu : ∀ p ∈ u, p.1 = fl ∧ p.2 ≠ Event.pointOfNoReturn ∧ isWriteEv p.2 = false ∧
      isValidationEv p.2 = false) : GoodTrace fl (t ++ u) := by
  rcases h with ⟨hfl, hpre⟩ | ⟨hfl, hpost⟩
  · refine Or.inl ⟨hfl, preTrace_append hpre ?_⟩
    intro p hp
    obtain ⟨h1, h2, h3, _⟩ := hu p hp
    exact ⟨hfl ▸ h1, h2, h3⟩
  · refine Or.inr ⟨hfl, postTrace_append hpost ?_⟩
    intro p hp
    obtain ⟨h1, h2, h3, h4⟩ := hu p hp
    exact ⟨hfl ▸ h1, h2, h3, h4⟩

theorem goodTrace_c3shape {fl : Bool} {t : List (Bool × Event)} (h : GoodTrace fl t) :
    C3Shape t := by
  rcases h with ⟨_, hpre⟩ | ⟨_, hpost⟩
  · exact ⟨t, [], by simp, hpre, Or.inl rfl⟩
  · obtain ⟨a, w, r, rfl, ha, hw, hr⟩ := hpost
    exact ⟨a, (true, Event.pointOfNoReturn) :: (w ++ r), rfl, ha, Or.inr ⟨w, r, rfl, hw, hr⟩⟩

theorem recoveryEv_props {e : Event} (h : isRecoveryEv e = true) :
    e ≠ Event.pointOfNoReturn ∧ isWriteEv e = false ∧ isValidationEv e = false ∧
      e ≠ Event.installRan ∧ e ≠ Event.installWouldRun ∧ e ≠ Event.buildRan ∧
      e ≠ Event.buildWouldRun ∧ e ≠ Event.fatalLogged := by
  cases e <;> simp_all [isRecoveryEv, isWriteEv, isValidationEv]

/-! ## C9: totality and read-back verification of writeFileVerified -/

/-- C9: writeFileVerified is total over all inputs and filesystem states —
in the model its type already returns a plain WriteResult, every primitive
throw (mkdir, write, stat) coming back as an ok := false result carrying the
error string. This theorem characterizes the results exactly: ok is true
precisely when no primitive threw and the stat read-back size equals the
length of the supplied data, and the error field is empty precisely when ok
is true (so every failure carries an error). -/
theorem c9_writeFileVerified_total (fse : FsWriteEnv) (data : List Nat) :
    ((writeFileVerified fse data).ok = true ↔
      (fse.mkdirThrow = none ∧ fse.writeThrow = none ∧
        fse.statOutcome = Except.ok data.length)) ∧
    ((writeFileVerified fse data).error = none ↔ (writeFileVerified fse data).ok = true) := by
  rcases fse with ⟨mk, wr, st⟩
  rcases mk with _ | e1
  · rcases wr with _ | e2
    · rcases st with e3 | sz
      · simp [writeFileVerified]
      · by_cases hsz : sz = data.length
        · subst hsz; simp [writeFileVerified]
        · simp [writeFileVerified, hsz]
    · simp [writeFileVerified]
  · simp [writeFileVerified]

/-! ## C8: determinism of the package builder -/

/-- C8: running the package builder twice against one unchanged source tree
yields the same package (the same entries in the same order, hence the same
serialized bytes for any fixed serialization) and therefore the same digest
for any digest function; in particular the build consults the clock for
nothing, so two builds at different times agree. -/
theorem c8_builder_deterministic (t : SourceTree) (now1 now2 : Nat)
    (serialize : List (String × FileData) → List Nat) (md5 : List Nat → String) :
    createDeploymentZip now1 t = createDeploymentZip now2 t ∧
    (createDeploymentZip now1 t).map (fun es => md5 (serialize es)) =
      (createDeploymentZip now2 t).map (fun es => md5 (serialize es)) :=
  ⟨rfl, rfl⟩

theorem recovery_spawnfail_hang (env : Env) (s0 : St) (hspawn : env.spawnOk = false)
    (hrb : env.rebind ≠ BindResult.reject) :
    ∃ s2, launchServerWithRecovery env s0 = RecResult.hang s2 ∧
      s2.trace = (s0.trace ++
          (if s0.statusServer then [(s0.flag, Event.listenerStopped)] else [])) ++
        [(s0.flag, Event.serverSpawnFailed), (s0.flag, Event.listenerRestartAttempt),
         (s0.flag, if env.rebind = BindResult.ok then Event.listenerStarted
           else Event.listenerBindWarn)] ∧
      (s2.statusServer = true ↔ env.rebind = BindResult.ok) := by
  cases hrb2 : env.rebind with
  | ok =>
    by_cases hss : s0.statusServer = true
    · refine ⟨emit { (emit (emit (emit { s0 with statusServer := false }
          Event.listenerStopped) Event.serverSpawnFailed)
          Event.listenerRestartAttempt) with statusServer := true }
          Event.listenerStarted, ?_, ?_, ?_⟩
      · simp [launchServerWithRecovery, stopStatusServer, startStatusServer,
          hss, hspawn, hrb2, emit]
      · simp [emit, hss, hrb2]
      · simp [emit]
    · refine ⟨emit { (emit (emit s0 Event.serverSpawnFailed)
          Event.listenerRestartAttempt) with statusServer := true }
          Event.listenerStarted, ?_, ?_, ?_⟩
      · simp [launchServerWithRecovery, stopStatusServer, startStatusServer,
          hss, hspawn, hrb2, emit]
      · simp [emit, hss, hrb2]
      · simp [emit]
  | warn =>
    by_cases hss : s0.statusServer = true
    · refine ⟨emit { (emit (emit (emit { s0 with statusServer := false }
          Event.listenerStopped) Event.serverSpawnFailed)
          Event.listenerRestartAttempt) with statusServer := false }
          Event.listenerBindWarn, ?_, ?_, ?_⟩
      · simp [launchServerWithRecovery, stopStatusServer, startStatusServer,
          hss, hspawn, hrb2, emit]
      · simp [emit, hss, hrb2]
      · simp [emit]
    · refine ⟨emit { (emit (emit s0 Event.serverSpawnFailed)
          Event.listenerRestartAttempt) with statusServer := false }
          Event.listenerBindWarn, ?_, ?_, ?_⟩
      · simp [launchServerWithRecovery, stopStatusServer, startStatusServer,
          hss, hspawn, hrb2, emit]
      · simp [emit, hss, hrb2]
      · simp [emit]
  | reject => exact absurd hrb2 hrb

theorem recovery_spawnfail_reject (env : Env) (s0 : St) (hspawn : env.spawnOk = false)
    (hrb : env.rebind = BindResult.reject) :
    ∃ s2, launchServerWithRecovery env s0 = RecResult.threw s2 := by
  by_cases hss : s0.statusServer = true
  · refine ⟨{ (emit (emit (emit { s0 with statusServer := false }
        Event.listenerStopped) Event.serverSpawnFailed)
        Event.listenerRestartAttempt) with statusServer := true }, ?_⟩
    simp [launchServerWithRecovery, stopStatusServer, startStatusServer,
      hss, hspawn, hrb, emit]
  · refine ⟨{ (emit (emit s0 Event.serverSpawnFailed)
        Event.listenerRestartAttempt) with statusServer := true }, ?_⟩
    simp [launchServerWithRecovery, stopStatusServer, startStatusServer,
      hss, hspawn, hrb, emit]

/-! ## C1: the unsafe-failure tail -/

/-- C1 counterexample: a session in which port 80 was refused at bind (the
source's tolerated EACCES warning) and a file write then fails. The flag has
become true and the session fails, the process hangs with no server spawned —
but the Diagnostic Listener is neither restarted nor held open: the final
state has no status server and the whole trace holds no
listenerRestartAttempt and no listenerStarted, so the session log is NOT
reachable, contrary to the claim. -/
theorem c1_counterexample :
    runMain envC1 = (Outcome.hang,
      { flag := true, statusServer := false,
        trace := [(false, Event.shutdownDone), (false, Event.listenerBindWarn),
          (false, Event.parsed 1), (false, Event.diffChecked false),
          (true, Event.pointOfNoReturn), (true, Event.wroteErr [97]),
          (true, Event.fatalLogged), (true, Event.hangForever)] }) ∧
    ((false, Event.listenerStarted) ∉ (runMain envC1).2.trace ∧
      (true, Event.listenerStarted) ∉ (runMain envC1).2.trace ∧
      (true, Event.listenerRestartAttempt) ∉ (runMain envC1).2.trace) := by
  constructor
  · decide
  · decide

/-- C1 (amended): once appDirectoryModified is true, every subsequent
failure makes the process hang forever with no new server started, and the
failures split in two. A failure thrown out of the try block reaches the
catch handler, which appends exactly the fatal log and the hang marker and
changes nothing else: the Diagnostic Listener is left exactly as it was at
the throw — held open if it was running, absent if its bind had failed —
and no restart of it is attempted there. A relaunch spawn failure is instead
absorbed inside launchServerWithRecovery before any throw can reach the
catch: the recovery stops any open listener and attempts exactly one reopen,
after which (the reopen binding or being tolerated as a warning) the session
ends hung with that state, so there the log can be reachable even after a
failed initial bind. -/
theorem c1_amended (env : Env) (s : St) (hf : s.flag = true) :
    (tryBody env = TryResult.threw s →
      runMain env = (Outcome.hang, emit (emit s Event.fatalLogged) Event.hangForever) ∧
      (runMain env).2.statusServer = s.statusServer ∧
      (runMain env).2.trace =
        s.trace ++ [(true, Event.fatalLogged), (true, Event.hangForever)]) ∧
    (tryBody env = TryResult.hung s → runMain env = (Outcome.hang, s)) ∧
    (env.spawnOk = false → env.rebind ≠ BindResult.reject →
      ∃ s2, launchServerWithRecovery env s = RecResult.hang s2 ∧
        s2.trace = (s.trace ++
            (if s.statusServer then [(true, Event.listenerStopped)] else [])) ++
          [(true, Event.serverSpawnFailed), (true, Event.listenerRestartAttempt),
           (true, if env.rebind = BindResult.ok then Event.listenerStarted
             else Event.listenerBindWarn)] ∧
        (s2.statusServer = true ↔ env.rebind = BindResult.ok)) := by
  refine ⟨?_, ?_, ?_⟩
  · intro h
    have hrm : runMain env =
        (Outcome.hang, emit (emit s Event.fatalLogged) Event.hangForever) := by
      unfold runMain
      rw [h]
      simp [emit, hf]
    refine ⟨hrm, by rw [hrm]; rfl, ?_⟩
    rw [hrm]
    simp [emit, hf]
  · intro h
    unfold runMain
    rw [h]
  · intro hspawn hrb
    obtain ⟨s2, h1, h2, h3⟩ := recovery_spawnfail_hang env s hspawn hrb
    rw [hf] at h2
    exact ⟨s2, h1, h2, h3⟩

/-- C1 amended witness: the envC1 session throws at the flag-true state stC1
and hangs without a listener restart; the envC1r session — a valid real-mode
deploy whose relaunch spawn fails — ends hung at stC1r, whose trace records
the recovery's single listener restart attempt. -/
theorem c1_amended_witness :
    (stC1.flag = true ∧ tryBody envC1 = TryResult.threw stC1 ∧
      (runMain envC1).1 = Outcome.hang) ∧
    (stC1r.flag = true ∧ tryBody envC1r = TryResult.hung stC1r ∧
      runMain envC1r = (Outcome.hang, stC1r) ∧
      (true, Event.listenerRestartAttempt) ∈ (runMain envC1r).2.trace) := by
  refine ⟨⟨by decide, by decide, ?_⟩, ⟨by decide, by decide, ?_, by decide⟩⟩
  · rw [((c1_amended envC1 stC1 (by decide)).1 (by decide)).1]
  · exact (c1_amended envC1r stC1r (by decide)).2.1 (by decide)

/-! ## C2: the safe-failure path -/

/-- C2 counterexample: a session that fails safely (digest mismatch, flag
still false) but whose restart spawn fails: the supervisor does not exit
with a non-zero status — it hangs forever (after restarting the status
server), so the claim's unconditional "restarts the prior server and then
exits non-zero" is false on this input. -/
theorem c2_counterexample :
    runMain envC2 = (Outcome.hang,
      { flag := false, statusServer := true,
        trace := [(false, Event.shutdownDone), (false, Event.listenerStarted),
          (false, Event.fatalLogged), (false, Event.safeRestartMsg),
          (false, Event.listenerStopped), (false, Event.serverSpawnFailed),
          (false, Event.listenerRestartAttempt), (false, Event.listenerStarted)] }) ∧
    (runMain envC2).1 ≠ Outcome.exit1 ∧
    (false, Event.serverSpawned) ∉ (runMain envC2).2.trace := by
  refine ⟨by decide, by decide, by decide⟩

/-- C2 (amended): a session that fails after a successful shutdown wait
while appDirectoryModified is still false attempts to restart the prior
server unchanged. When that spawn succeeds the session exits with a non-zero
status and the trace records the spawn. When the spawn fails the session
never exits: the recovery stops and reopens the Diagnostic Listener, and the
process hangs forever when the reopen binds or is tolerated as a warning,
but crashes on the unhandled listen rejection when the reopen rejects. -/
theorem c2_amended (env : Env) (s : St) (h : tryBody env = TryResult.threw s)
    (hf : s.flag = false) :
    (env.spawnOk = true → (runMain env).1 = Outcome.exit1 ∧
      (s.flag, Event.serverSpawned) ∈ (runMain env).2.trace) ∧
    (env.spawnOk = false → env.rebind ≠ BindResult.reject →
      (runMain env).1 = Outcome.hang) ∧
    (env.spawnOk = false → env.rebind = BindResult.reject →
      (runMain env).1 = Outcome.crash) := by
  refine ⟨?_, ?_, ?_⟩
  · intro hspawn
    unfold runMain
    rw [h]
    rcases s with ⟨fl, ss, tr⟩
    obtain rfl : fl = false := hf
    cases ss <;>
      simp [emit, launchServerWithRecovery, stopStatusServer, hspawn]
  · intro hspawn hrb
    unfold runMain
    rw [h]
    show (if (emit s Event.fatalLogged).flag = true then
        (Outcome.hang, emit (emit s Event.fatalLogged) Event.hangForever)
      else
        match launchServerWithRecovery env
            (emit (emit s Event.fatalLogged) Event.safeRestartMsg) with
        | RecResult.ok s2 => (Outcome.exit1, emit s2 Event.restartedAfterSafeFailure)
        | RecResult.hang s2 => (Outcome.hang, s2)
        | RecResult.threw s2 => (Outcome.crash, s2)).1 = Outcome.hang
    rw [if_neg (show ¬((emit s Event.fatalLogged).flag = true) by
      rw [emit_flag, hf]; decide)]
    obtain ⟨s2, heq, _⟩ := recovery_spawnfail_hang env
      (emit (emit s Event.fatalLogged) Event.safeRestartMsg) hspawn hrb
    rw [heq]
  · intro hspawn hrb
    unfold runMain
    rw [h]
    show (if (emit s Event.fatalLogged).flag = true then
        (Outcome.hang, emit (emit s Event.fatalLogged) Event.hangForever)
      else
        match launchServerWithRecovery env
            (emit (emit s Event.fatalLogged) Event.safeRestartMsg) with
        | RecResult.ok s2 => (Outcome.exit1, emit s2 Event.restartedAfterSafeFailure)
        | RecResult.hang s2 => (Outcome.hang, s2)
        | RecResult.threw s2 => (Outcome.crash, s2)).1 = Outcome.crash
    rw [if_neg (show ¬((emit s Event.fatalLogged).flag = true) by
      rw [emit_flag, hf]; decide)]
    obtain ⟨s2, heq⟩ := recovery_spawnfail_reject env
      (emit (emit s Event.fatalLogged) Event.safeRestartMsg) hspawn hrb
    rw [heq]

/-- C2 amended witness: the envC5w session (undecodable package, working
spawn) exits 1 having respawned the server; the envC2 session (spawn fails,
reopen binds) hangs; the envC6 session (spawn fails, reopen rejects)
crashes. -/
theorem c2_amended_witness :
    (tryBody envC5w = TryResult.threw
        { flag := false, statusServer := true,
          trace := [(false, Event.shutdownDone), (false, Event.listenerStarted)] } ∧
      (runMain envC5w).1 = Outcome.exit1) ∧
    (envC2.spawnOk = false ∧ (runMain envC2).1 = Outcome.hang) ∧
    (envC6.spawnOk = false ∧ (runMain envC6).1 = Outcome.crash) := by
  refine ⟨⟨by decide, ?_⟩, ⟨by decide, ?_⟩, ⟨by decide, ?_⟩⟩
  · exact ((c2_amended envC5w
      { flag := false, statusServer := true,
        trace := [(false, Event.shutdownDone), (false, Event.listenerStarted)] }
      (by decide) (by decide)).1 (by decide)).1
  · exact (c2_amended envC2 stC2 (by decide) (by decide)).2.1 (by decide) (by decide)
  · exact (c2_amended envC6 stC2 (by decide) (by decide)).2.2 (by decide) (by decide)

/-! ## Exact equations for the phase functions -/

theorem execStep_test (b : Bool) (we re : Event) (s : St) :
    execStep true b we re s = Except.ok (emit s we) := rfl

theorem execStep_real_ok (we re : Event) (s : St) :
    execStep false true we re s = Except.ok (emit s re) := rfl

theorem execStep_real_err (we re : Event) (s : St) :
    execStep false false we re s = Except.error (emit s re) := rfl

theorem isWriteEv_writeEvFor (env : Env) (e : ZipEntry) :
    isWriteEv (writeEvFor env e) = true := by
  unfold writeEvFor
  split <;> rfl

theorem writeLoop_testEq (env : Env) (h : env.testMode = true) :
    ∀ (entries : List ZipEntry) (s : St),
      writeLoop env entries s =
        ({ s with trace := s.trace ++
            entries.map (fun e => (s.flag, Event.testWouldWrite e.fileName)) }, 0)
  | [], s => by simp [writeLoop]
  | e :: rest, s => by
    rw [writeLoop, if_pos h, writeLoop_testEq env h rest (emit s (Event.testWouldWrite e.fileName))]
    simp [emit]

theorem writeLoop_realEq (env : Env) (h : env.testMode = false) :
    ∀ (entries : List ZipEntry) (s : St),
      writeLoop env entries s =
        ({ s with trace := s.trace ++ entries.map (fun e => (s.flag, writeEvFor env e)) },
          entries.countP (fun e => !(writeFileVerified (env.fsFor e.fileName) e.data).ok))
  | [], s => by simp [writeLoop]
  | e :: rest, s => by
    rw [writeLoop, if_neg (by simp [h])]
    by_cases hw : (writeFileVerified (env.fsFor e.fileName) e.data).ok = true
    · rw [if_pos hw, writeLoop_realEq env h rest (emit s (Event.wroteOk e.fileName))]
      simp [emit, writeEvFor, hw, List.countP_cons]
    · rw [if_neg hw, writeLoop_realEq env h rest (emit s (Event.wroteErr e.fileName))]
      simp only [Bool.not_eq_true] at hw
      simp [emit, writeEvFor, hw, List.countP_cons]

theorem recovery_ext (env : Env) (s : St) :
    (recState (launchServerWithRecovery env s)).flag = s.flag ∧
    ∃ u, (recState (launchServerWithRecovery env s)).trace = s.trace ++ u ∧
      ∀ p ∈ u, p.1 = s.flag ∧ isRecoveryEv p.2 = true ∧
        (env.spawnOk = true → p.2 = Event.listenerStopped ∨ p.2 = Event.serverSpawned) := by
  by_cases hss : s.statusServer = true <;> by_cases hsp : env.spawnOk = true
  · refine ⟨by simp [launchServerWithRecovery, stopStatusServer, hss, hsp, recState, emit],
      [(s.flag, Event.listenerStopped), (s.flag, Event.serverSpawned)],
      by simp [launchServerWithRecovery, stopStatusServer, hss, hsp, recState, emit], ?_⟩
    intro p hp
    simp only [List.mem_cons, List.not_mem_nil, or_false] at hp
    rcases hp with rfl | rfl
    · exact ⟨rfl, rfl, fun _ => Or.inl rfl⟩
    · exact ⟨rfl, rfl, fun _ => Or.inr rfl⟩
  · cases hrb : env.rebind
    · refine ⟨by simp [launchServerWithRecovery, stopStatusServer, startStatusServer,
          hss, hsp, hrb, recState, emit],
        [(s.flag, Event.listenerStopped), (s.flag, Event.serverSpawnFailed),
          (s.flag, Event.listenerRestartAttempt), (s.flag, Event.listenerStarted)],
        by simp [launchServerWithRecovery, stopStatusServer, startStatusServer,
          hss, hsp, hrb, recState, emit], ?_⟩
      intro p hp
      simp only [List.mem_cons, List.not_mem_nil, or_false] at hp
      rcases hp with rfl | rfl | rfl | rfl <;> exact ⟨rfl, rfl, fun h => absurd h hsp⟩
    · refine ⟨by simp [launchServerWithRecovery, stopStatusServer, startStatusServer,
          hss, hsp, hrb, recState, emit],
        [(s.flag, Event.listenerStopped), (s.flag, Event.serverSpawnFailed),
          (s.flag, Event.listenerRestartAttempt), (s.flag, Event.listenerBindWarn)],
        by simp [launchServerWithRecovery, stopStatusServer, startStatusServer,
          hss, hsp, hrb, recState, emit], ?_⟩
      intro p hp
      simp only [List.mem_cons, List.not_mem_nil, or_false] at hp
      rcases hp with rfl | rfl | rfl | rfl <;> exact ⟨rfl, rfl, fun h => absurd h hsp⟩
    · refine ⟨by simp [launchServerWithRecovery, stopStatusServer, startStatusServer,
          hss, hsp, hrb, recState, emit],
        [(s.flag, Event.listenerStopped), (s.flag, Event.serverSpawnFailed),
          (s.flag, Event.listenerRestartAttempt)],
        by simp [launchServerWithRecovery, stopStatusServer, startStatusServer,
          hss, hsp, hrb, recState, emit], ?_⟩
      intro p hp
      simp only [List.mem_cons, List.not_mem_nil, or_false] at hp
      rcases hp with rfl | rfl | rfl <;> exact ⟨rfl, rfl, fun h => absurd h hsp⟩
  · refine ⟨by simp [launchServerWithRecovery, stopStatusServer, hss, hsp, recState, emit],
      [(s.flag, Event.serverSpawned)],
      by simp [launchServerWithRecovery, stopStatusServer, hss, hsp, recState, emit], ?_⟩
    intro p hp
    rcases List.mem_singleton.mp hp with rfl
    exact ⟨rfl, rfl, fun _ => Or.inr rfl⟩
  · cases hrb : env.rebind
    · refine ⟨by simp [launchServerWithRecovery, stopStatusServer, startStatusServer,
          hss, hsp, hrb, recState, emit],
        [(s.flag, Event.serverSpawnFailed), (s.flag, Event.listenerRestartAttempt),
          (s.flag, Event.listenerStarted)],
        by simp [launchServerWithRecovery, stopStatusServer, startStatusServer,
          hss, hsp, hrb, recState, emit], ?_⟩
      intro p hp
      simp only [List.mem_cons, List.not_mem_nil, or_false] at hp
      rcases hp with rfl | rfl | rfl <;> exact ⟨rfl, rfl, fun h => absurd h hsp⟩
    · refine ⟨by simp [launchServerWithRecovery, stopStatusServer, startStatusServer,
          hss, hsp, hrb, recState, emit],
        [(s.flag, Event.serverSpawnFailed), (s.flag, Event.listenerRestartAttempt),
          (s.flag, Event.listenerBindWarn)],
        by simp [launchServerWithRecovery, stopStatusServer, startStatusServer,
          hss, hsp, hrb, recState, emit], ?_⟩
      intro p hp
      simp only [List.mem_cons, List.not_mem_nil, or_false] at hp
      rcases hp with rfl | rfl | rfl <;> exact ⟨rfl, rfl, fun h => absurd h hsp⟩
    · refine ⟨by simp [launchServerWithRecovery, stopStatusServer, startStatusServer,
          hss, hsp, hrb, recState, emit],
        [(s.flag, Event.serverSpawnFailed), (s.flag, Event.listenerRestartAttempt)],
        by simp [launchServerWithRecovery, stopStatusServer, startStatusServer,
          hss, hsp, hrb, recState, emit], ?_⟩
      intro p hp
      simp only [List.mem_cons, List.not_mem_nil, or_false] at hp
      rcases hp with rfl | rfl <;> exact ⟨rfl, rfl, fun h => absurd h hsp⟩

/-! ## The GoodTrace invariant walk -/

theorem goodTrace_emit {fl : Bool} {t : List (Bool × Event)} (h : GoodTrace fl t)
    (e : Event) (he : e ≠ Event.pointOfNoReturn ∧ isWriteEv e = false ∧
      isValidationEv e = false) : GoodTrace fl (t ++ [(fl, e)]) :=
  goodTrace_append h (by
    intro p hp
    rcases List.mem_singleton.mp hp with rfl
    exact ⟨rfl, he.1, he.2.1, he.2.2⟩)

theorem recovery_goodTrace (env : Env) (s : St) (h : GoodTrace s.flag s.trace) :
    GoodTrace (recState (launchServerWithRecovery env s)).flag
      (recState (launchServerWithRecovery env s)).trace := by
  obtain ⟨hfl, u, htr, hu⟩ := recovery_ext env s
  rw [hfl, htr]
  refine goodTrace_append h ?_
  intro p hp
  obtain ⟨h1, h2, _⟩ := hu p hp
  obtain ⟨a1, a2, a3, _⟩ := recoveryEv_props h2
  exact ⟨h1, a1, a2, a3⟩

theorem launchStep_good (env : Env) (s : St) (h : GoodTrace s.flag s.trace) :
    GoodTrace (trState (launchStep env s)).flag (trState (launchStep env s)).trace := by
  unfold launchStep
  have hrecg := recovery_goodTrace env s h
  cases hrec : launchServerWithRecovery env s
  case ok s2 =>
    rw [hrec] at hrecg
    simp only [recState] at hrecg
    simp only [trState, emit_flag, emit_trace]
    exact goodTrace_emit hrecg Event.relaunchComplete (by simp [isWriteEv, isValidationEv])
  case hang s2 =>
    rw [hrec] at hrecg
    exact hrecg
  case threw s2 =>
    rw [hrec] at hrecg
    exact hrecg

theorem execStep_ext (t b : Bool) (we re : Event) (s : St) :
    (exState (execStep t b we re s)).flag = s.flag ∧
    ∃ u, (exState (execStep t b we re s)).trace = s.trace ++ u ∧
      ∀ p ∈ u, p.1 = s.flag ∧ (p.2 = we ∨ p.2 = re) := by
  cases t <;> cases b
  · exact ⟨rfl, [(s.flag, re)], rfl, by
      intro p hp; rcases List.mem_singleton.mp hp with rfl; exact ⟨rfl, Or.inr rfl⟩⟩
  · exact ⟨rfl, [(s.flag, re)], rfl, by
      intro p hp; rcases List.mem_singleton.mp hp with rfl; exact ⟨rfl, Or.inr rfl⟩⟩
  · exact ⟨rfl, [(s.flag, we)], rfl, by
      intro p hp; rcases List.mem_singleton.mp hp with rfl; exact ⟨rfl, Or.inl rfl⟩⟩
  · exact ⟨rfl, [(s.flag, we)], rfl, by
      intro p hp; rcases List.mem_singleton.mp hp with rfl; exact ⟨rfl, Or.inl rfl⟩⟩

theorem installStep_ext (env : Env) (ni : Bool) (s : St) :
    (exState (installStep env ni s)).flag = s.flag ∧
    ∃ u, (exState (installStep env ni s)).trace = s.trace ++ u ∧
      ∀ p ∈ u, p.1 = s.flag ∧ (p.2 = Event.installWouldRun ∨ p.2 = Event.installRan) := by
  cases ni
  · exact ⟨rfl, [], by simp [installStep, exState], by intro p hp; cases hp⟩
  · simpa [installStep] using
      execStep_ext env.testMode env.installOk Event.installWouldRun Event.installRan s

theorem installEv_props {e : Event}
    (h : e = Event.installWouldRun ∨ e = Event.installRan) :
    e ≠ Event.pointOfNoReturn ∧ isWriteEv e = false ∧ isValidationEv e = false := by
  rcases h with rfl | rfl <;> simp [isWriteEv, isValidationEv]

theorem buildEv_props {e : Event}
    (h : e = Event.buildWouldRun ∨ e = Event.buildRan) :
    e ≠ Event.pointOfNoReturn ∧ isWriteEv e = false ∧ isValidationEv e = false := by
  rcases h with rfl | rfl <;> simp [isWriteEv, isValidationEv]

theorem tail_good (env : Env) (ni : Bool) (wl1 : St)
    (hG : GoodTrace wl1.flag wl1.trace) (r : TryResult)
    (hr : (match installStep env ni wl1 with
      | Except.error s2 => TryResult.threw s2
      | Except.ok s2 =>
        match execStep env.testMode env.buildOk Event.buildWouldRun Event.buildRan s2 with
        | Except.error s3 => TryResult.threw s3
        | Except.ok s3 => launchStep env s3) = r) :
    GoodTrace (trState r).flag (trState r).trace := by
  have hx := installStep_ext env ni wl1
  cases hi : installStep env ni wl1 with
  | error s2 =>
    rw [hi] at hr hx
    simp only [exState] at hx
    obtain ⟨hfl2, u, htr2, hu⟩ := hx
    subst hr
    simp only [trState]
    rw [hfl2, htr2]
    refine goodTrace_append hG ?_
    intro p hp
    obtain ⟨h1, h2⟩ := hu p hp
    obtain ⟨a1, a2, a3⟩ := installEv_props h2
    exact ⟨h1, a1, a2, a3⟩
  | ok s2 =>
    rw [hi] at hr hx
    replace hr : (match execStep env.testMode env.buildOk Event.buildWouldRun
        Event.buildRan s2 with
      | Except.error s3 => TryResult.threw s3
      | Except.ok s3 => launchStep env s3) = r := hr
    simp only [exState] at hx
    obtain ⟨hfl2, u, htr2, hu⟩ := hx
    have hG2 : GoodTrace s2.flag s2.trace := by
      rw [hfl2, htr2]
      refine goodTrace_append hG ?_
      intro p hp
      obtain ⟨h1, h2⟩ := hu p hp
      obtain ⟨a1, a2, a3⟩ := installEv_props h2
      exact ⟨h1, a1, a2, a3⟩
    have hy := execStep_ext env.testMode env.buildOk Event.buildWouldRun Event.buildRan s2
    cases hb : execStep env.testMode env.buildOk Event.buildWouldRun Event.buildRan s2 with
    | error s3 =>
      rw [hb] at hr hy
      simp only [exState] at hy
      obtain ⟨hfl3, u3, htr3, hu3⟩ := hy
      subst hr
      simp only [trState]
      rw [hfl3, htr3]
      refine goodTrace_append hG2 ?_
      intro p hp
      obtain ⟨h1, h2⟩ := hu3 p hp
      obtain ⟨a1, a2, a3⟩ := buildEv_props h2
      exact ⟨h1, a1, a2, a3⟩
    | ok s3 =>
      rw [hb] at hr hy
      simp only [exState] at hy
      obtain ⟨hfl3, u3, htr3, hu3⟩ := hy
      have hG3 : GoodTrace s3.flag s3.trace := by
        rw [hfl3, htr3]
        refine goodTrace_append hG2 ?_
        intro p hp
        obtain ⟨h1, h2⟩ := hu3 p hp
        obtain ⟨a1, a2, a3⟩ := buildEv_props h2
        exact ⟨h1, a1, a2, a3⟩
      subst hr
      exact launchStep_good env s3 hG3

theorem deploy_good (env : Env) (ni : Bool) (entries : List ZipEntry) (s : St)
    (hf : s.flag = false) (hpre : PreTrace s.trace) :
    GoodTrace (trState (deployAndLaunch env ni entries s)).flag
      (trState (deployAndLaunch env ni entries s)).trace := by
  cases ht : env.testMode with
  | false =>
    have hW : WriteTrace
        (writeLoop env entries (emit { s with flag := true } Event.pointOfNoReturn)).1.trace := by
      rw [writeLoop_realEq env ht]
      refine writeTrace_append_writes (t := s.trace ++ [(true, Event.pointOfNoReturn)])
        (preTrace_ponr hpre) ?_
      intro p hp
      obtain ⟨e, he, rfl⟩ := List.mem_map.mp hp
      exact ⟨rfl, isWriteEv_writeEvFor env e⟩
    have hWfl :
        (writeLoop env entries (emit { s with flag := true } Event.pointOfNoReturn)).1.flag
          = true := by
      rw [writeLoop_realEq env ht]
      rfl
    simp only [deployAndLaunch]
    rw [if_neg (show ¬(env.testMode = true) by simp [ht])]
    by_cases hfail :
        (writeLoop env entries (emit { s with flag := true } Event.pointOfNoReturn)).2 > 0
    · rw [if_pos hfail]
      simp only [trState]
      rw [hWfl]
      exact Or.inr ⟨rfl, writeTrace_postTrace hW⟩
    · rw [if_neg hfail]
      refine tail_good env ni _ ?_ _ rfl
      rw [hWfl]
      exact Or.inr ⟨rfl, writeTrace_postTrace hW⟩
  | true =>
    have hP : PreTrace (writeLoop env entries s).1.trace := by
      rw [writeLoop_testEq env ht]
      refine preTrace_append hpre ?_
      intro p hp
      obtain ⟨e, he, rfl⟩ := List.mem_map.mp hp
      exact ⟨hf, by simp, by simp [isWriteEv]⟩
    have hPfl : (writeLoop env entries s).1.flag = false := by
      rw [writeLoop_testEq env ht]
      exact hf
    have hPn : (writeLoop env entries s).2 = 0 := by
      rw [writeLoop_testEq env ht]
    simp only [deployAndLaunch]
    rw [if_pos ht]
    rw [if_neg (show ¬((writeLoop env entries s).2 > 0) by simp [hPn])]
    refine tail_good env ni _ ?_ _ rfl
    rw [hPfl]
    exact Or.inl ⟨rfl, hP⟩

theorem pipeline_good (env : Env) (s : St) (hf : s.flag = false) (hpre : PreTrace s.trace) :
    GoodTrace (trState (pipelineAfterListener env s)).flag
      (trState (pipelineAfterListener env s)).trace := by
  unfold pipelineAfterListener
  cases hp : parseZipInMemory env.md5 env.inflate env.zipBytes env.expectedMd5 with
  | error e =>
    simp only [trState]
    exact Or.inl ⟨hf, hpre⟩
  | ok entries =>
    refine deploy_good env _ entries _ hf ?_
    simp only [emit_trace, emit_flag]
    refine preTrace_append (preTrace_append hpre ?_) ?_
    · intro p hp2
      rcases List.mem_singleton.mp hp2 with rfl
      exact ⟨hf, by simp, rfl⟩
    · intro p hp2
      rcases List.mem_singleton.mp hp2 with rfl
      exact ⟨hf, by simp, rfl⟩

theorem tryBody_good (env : Env) :
    GoodTrace (trState (tryBody env)).flag (trState (tryBody env)).trace := by
  cases hs : env.shutdownOk with
  | false =>
    simp only [tryBody, hs, Bool.not_false, if_true, trState, emit]
    exact Or.inl ⟨rfl, by unfold PreTrace PreP; decide⟩
  | true =>
    simp only [tryBody, hs, Bool.not_true, Bool.false_eq_true, if_false]
    cases ht : env.testMode with
    | true =>
      rw [if_pos rfl]
      exact pipeline_good env _ rfl (by unfold PreTrace PreP; decide)
    | false =>
      rw [if_neg (show ¬(false = true) by decide)]
      cases hb : env.bind0 with
      | ok =>
        simp only [startStatusServer]
        exact pipeline_good env _ rfl (by unfold PreTrace PreP; decide)
      | warn =>
        simp only [startStatusServer]
        exact pipeline_good env _ rfl (by unfold PreTrace PreP; decide)
      | reject =>
        simp only [startStatusServer, trState]
        exact Or.inl ⟨rfl, by unfold PreTrace PreP; decide⟩

theorem runMain_good (env : Env) :
    GoodTrace (runMain env).2.flag (runMain env).2.trace := by
  have hT := tryBody_good env
  unfold runMain
  cases htb : tryBody env with
  | completed s =>
    rw [htb] at hT
    exact hT
  | exited1 s =>
    rw [htb] at hT
    exact hT
  | hung s =>
    rw [htb] at hT
    exact hT
  | threw s =>
    rw [htb] at hT
    simp only [trState] at hT
    show GoodTrace
      ((if (emit s Event.fatalLogged).flag = true then
          (Outcome.hang, emit (emit s Event.fatalLogged) Event.hangForever)
        else
          match launchServerWithRecovery env
              (emit (emit s Event.fatalLogged) Event.safeRestartMsg) with
          | RecResult.ok s2 => (Outcome.exit1, emit s2 Event.restartedAfterSafeFailure)
          | RecResult.hang s2 => (Outcome.hang, s2)
          | RecResult.threw s2 => (Outcome.crash, s2)).2.flag)
      ((if (emit s Event.fatalLogged).flag = true then
          (Outcome.hang, emit (emit s Event.fatalLogged) Event.hangForever)
        else
          match launchServerWithRecovery env
              (emit (emit s Event.fatalLogged) Event.safeRestartMsg) with
          | RecResult.ok s2 => (Outcome.exit1, emit s2 Event.restartedAfterSafeFailure)
          | RecResult.hang s2 => (Outcome.hang, s2)
          | RecResult.threw s2 => (Outcome.crash, s2)).2.trace)
    by_cases hf : s.flag = true
    · rw [if_pos (show (emit s Event.fatalLogged).flag = true from hf)]
      exact goodTrace_emit
        (goodTrace_emit hT Event.fatalLogged (by simp [isWriteEv, isValidationEv]))
        Event.hangForever (by simp [isWriteEv, isValidationEv])
    · rw [if_neg (show ¬((emit s Event.fatalLogged).flag = true) from hf)]
      have hG2 : GoodTrace (emit (emit s Event.fatalLogged) Event.safeRestartMsg).flag
          (emit (emit s Event.fatalLogged) Event.safeRestartMsg).trace :=
        goodTrace_emit
          (goodTrace_emit hT Event.fatalLogged (by simp [isWriteEv, isValidationEv]))
          Event.safeRestartMsg (by simp [isWriteEv, isValidationEv])
      have hrg := recovery_goodTrace env _ hG2
      cases hrec : launchServerWithRecovery env
          (emit (emit s Event.fatalLogged) Event.safeRestartMsg) with
      | ok s2 =>
        rw [hrec] at hrg
        simp only [recState] at hrg
        exact goodTrace_emit hrg Event.restartedAfterSafeFailure
          (by simp [isWriteEv, isValidationEv])
      | hang s2 =>
        rw [hrec] at hrg
        exact hrg
      | threw s2 =>
        rw [hrec] at hrg
        exact hrg

theorem writeEv_not_validation {e : Event} (h : isWriteEv e = true) :
    isValidationEv e = false := by
  cases e <;> simp_all [isWriteEv, isValidationEv]

/-! ## C3: the appDirectoryModified lifecycle -/

/-- C3: in every session, appDirectoryModified transitions false to true at
most once and never reverts (the trace splits into a false-flag prefix and a
true-flag suffix), the transition entry is the first true-flag entry and
every managed-tree write sits in the contiguous block directly after it
(so the transition happens exactly at the write step, immediately before the
first write), and the flag reads false at every shutdown-wait, validation
(digest check and decode) and manifest-diff event. -/
theorem c3_flag_lifecycle (env : Env) :
    C3Shape (runMain env).2.trace ∧
    ∀ p ∈ (runMain env).2.trace, isValidationEv p.2 = true → p.1 = false := by
  have hG := runMain_good env
  refine ⟨goodTrace_c3shape hG, ?_⟩
  obtain ⟨a, b, heq, ha, hb⟩ := goodTrace_c3shape hG
  intro p hp hval
  rw [heq] at hp
  rcases List.mem_append.mp hp with h | h
  · exact (ha p h).1
  · rcases hb with rfl | ⟨w, r, rfl, hw, hr⟩
    · cases h
    · rcases List.mem_cons.mp h with rfl | h2
      · simp [isValidationEv] at hval
      · rcases List.mem_append.mp h2 with h3 | h3
        · have h4 := writeEv_not_validation (hw p h3).2
          simp_all
        · have h4 := (hr p h3).2.2.2
          simp_all

/-! ## The safe-failure catch path -/

theorem recovery_hang_spawnFalse {env : Env} {s s2 : St}
    (h : launchServerWithRecovery env s = RecResult.hang s2) : env.spawnOk = false := by
  by_contra hc
  have hsp : env.spawnOk = true := by revert hc; cases env.spawnOk <;> simp
  unfold launchServerWithRecovery at h
  rw [if_pos hsp] at h
  cases h

theorem recovery_threw_spawnFalse {env : Env} {s s2 : St}
    (h : launchServerWithRecovery env s = RecResult.threw s2) : env.spawnOk = false := by
  by_contra hc
  have hsp : env.spawnOk = true := by revert hc; cases env.spawnOk <;> simp
  unfold launchServerWithRecovery at h
  rw [if_pos hsp] at h
  cases h

theorem runMain_threw_safe_ext (env : Env) (s : St) (h : tryBody env = TryResult.threw s)
    (hf : s.flag = false) :
    ∃ u, (runMain env).2.trace = s.trace ++ u ∧
      (∀ p ∈ u, p.1 = false ∧ (isRecoveryEv p.2 = true ∨ p.2 = Event.fatalLogged ∨
        p.2 = Event.safeRestartMsg ∨ p.2 = Event.restartedAfterSafeFailure) ∧
        (env.spawnOk = true → p.2 ≠ Event.listenerStarted ∧
          p.2 ≠ Event.listenerRestartAttempt)) ∧
      (env.spawnOk = true → (runMain env).1 = Outcome.exit1) := by
  unfold runMain
  rw [h]
  show ∃ u,
      ((if (emit s Event.fatalLogged).flag = true then
          (Outcome.hang, emit (emit s Event.fatalLogged) Event.hangForever)
        else
          match launchServerWithRecovery env
              (emit (emit s Event.fatalLogged) Event.safeRestartMsg) with
          | RecResult.ok s2 => (Outcome.exit1, emit s2 Event.restartedAfterSafeFailure)
          | RecResult.hang s2 => (Outcome.hang, s2)
          | RecResult.threw s2 => (Outcome.crash, s2)).2.trace) = s.trace ++ u ∧
      (∀ p ∈ u, p.1 = false ∧ (isRecoveryEv p.2 = true ∨ p.2 = Event.fatalLogged ∨
        p.2 = Event.safeRestartMsg ∨ p.2 = Event.restartedAfterSafeFailure) ∧
        (env.spawnOk = true → p.2 ≠ Event.listenerStarted ∧
          p.2 ≠ Event.listenerRestartAttempt)) ∧
      (env.spawnOk = true →
        ((if (emit s Event.fatalLogged).flag = true then
          (Outcome.hang, emit (emit s Event.fatalLogged) Event.hangForever)
        else
          match launchServerWithRecovery env
              (emit (emit s Event.fatalLogged) Event.safeRestartMsg) with
          | RecResult.ok s2 => (Outcome.exit1, emit s2 Event.restartedAfterSafeFailure)
          | RecResult.hang s2 => (Outcome.hang, s2)
          | RecResult.threw s2 => (Outcome.crash, s2)).1) = Outcome.exit1)
  rw [if_neg (show ¬((emit s Event.fatalLogged).flag = true) from by
    simp [emit_flag, hf])]
  obtain ⟨hfl2, u2, htr2, hu2⟩ :=
    recovery_ext env (emit (emit s Event.fatalLogged) Event.safeRestartMsg)
  have hflagval : (emit (emit s Event.fatalLogged) Event.safeRestartMsg).flag = false := by
    simp [emit_flag, hf]
  cases hrec : launchServerWithRecovery env
      (emit (emit s Event.fatalLogged) Event.safeRestartMsg) with
  | ok s3 =>
    rw [hrec] at hfl2 htr2
    simp only [recState] at hfl2 htr2
    refine ⟨[(false, Event.fatalLogged), (false, Event.safeRestartMsg)] ++ u2 ++
      [(false, Event.restartedAfterSafeFailure)], ?_, ?_, fun _ => rfl⟩
    · show (emit s3 Event.restartedAfterSafeFailure).trace = _
      rw [emit_trace, htr2, hfl2, hflagval]
      simp [emit, hf, List.append_assoc]
    · intro p hp
      rcases List.mem_append.mp hp with hp1 | hp1
      · rcases List.mem_append.mp hp1 with hp2 | hp2
        · simp only [List.mem_cons, List.not_mem_nil, or_false] at hp2
          rcases hp2 with rfl | rfl
          · exact ⟨rfl, Or.inr (Or.inl rfl), fun _ => ⟨by decide, by decide⟩⟩
          · exact ⟨rfl, Or.inr (Or.inr (Or.inl rfl)), fun _ => ⟨by decide, by decide⟩⟩
        · obtain ⟨h1, h2, h3⟩ := hu2 p hp2
          rw [hflagval] at h1
          refine ⟨h1, Or.inl h2, fun hsp => ?_⟩
          rcases h3 hsp with h4 | h4 <;> rw [h4] <;> exact ⟨by decide, by decide⟩
      · rcases List.mem_singleton.mp hp1 with rfl
        exact ⟨rfl, Or.inr (Or.inr (Or.inr rfl)), fun _ => ⟨by decide, by decide⟩⟩
  | hang s3 =>
    rw [hrec] at hfl2 htr2
    simp only [recState] at hfl2 htr2
    have hspf := recovery_hang_spawnFalse hrec
    refine ⟨[(false, Event.fatalLogged), (false, Event.safeRestartMsg)] ++ u2, ?_, ?_,
      fun hsp => absurd hspf (by simp [hsp])⟩
    · show s3.trace = _
      rw [htr2]
      simp [emit, hf, List.append_assoc]
    · intro p hp
      rcases List.mem_append.mp hp with hp1 | hp1
      · simp only [List.mem_cons, List.not_mem_nil, or_false] at hp1
        rcases hp1 with rfl | rfl
        · exact ⟨rfl, Or.inr (Or.inl rfl), fun _ => ⟨by decide, by decide⟩⟩
        · exact ⟨rfl, Or.inr (Or.inr (Or.inl rfl)), fun _ => ⟨by decide, by decide⟩⟩
      · obtain ⟨h1, h2, _⟩ := hu2 p hp1
        rw [hflagval] at h1
        exact ⟨h1, Or.inl h2, fun hsp => absurd hspf (by simp [hsp])⟩
  | threw s3 =>
    rw [hrec] at hfl2 htr2
    simp only [recState] at hfl2 htr2
    have hspf := recovery_threw_spawnFalse hrec
    refine ⟨[(false, Event.fatalLogged), (false, Event.safeRestartMsg)] ++ u2, ?_, ?_,
      fun hsp => absurd hspf (by simp [hsp])⟩
    · show s3.trace = _
      rw [htr2]
      simp [emit, hf, List.append_assoc]
    · intro p hp
      rcases List.mem_append.mp hp with hp1 | hp1
      · simp only [List.mem_cons, List.not_mem_nil, or_false] at hp1
        rcases hp1 with rfl | rfl
        · exact ⟨rfl, Or.inr (Or.inl rfl), fun _ => ⟨by decide, by decide⟩⟩
        · exact ⟨rfl, Or.inr (Or.inr (Or.inl rfl)), fun _ => ⟨by decide, by decide⟩⟩
      · obtain ⟨h1, h2, _⟩ := hu2 p hp1
        rw [hflagval] at h1
        exact ⟨h1, Or.inl h2, fun hsp => absurd hspf (by simp [hsp])⟩

theorem catchEv_props {e : Event}
    (h : isRecoveryEv e = true ∨ e = Event.fatalLogged ∨ e = Event.safeRestartMsg ∨
      e = Event.restartedAfterSafeFailure) :
    e ≠ Event.pointOfNoReturn ∧ isWriteEv e = false := by
  rcases h with h | rfl | rfl | rfl
  · obtain ⟨a1, a2, _⟩ := recoveryEv_props h
    exact ⟨a1, a2⟩
  · simp [isWriteEv]
  · simp [isWriteEv]
  · simp [isWriteEv]

theorem run_parse_error (env : Env) (e : ZipErr)
    (hp : parseZipInMemory env.md5 env.inflate env.zipBytes env.expectedMd5 =
      Except.error e) :
    PreTrace (runMain env).2.trace ∧
    (env.shutdownOk = true → env.spawnOk = true → (runMain env).1 = Outcome.exit1) := by
  have key : (tryBody env =
        TryResult.exited1 ⟨false, false, [(false, Event.shutdownTimeout)]⟩ ∧
        env.shutdownOk = false) ∨
      ∃ st, tryBody env = TryResult.threw st ∧ st.flag = false ∧ PreTrace st.trace := by
    unfold tryBody
    cases hs : env.shutdownOk with
    | false =>
      exact Or.inl ⟨by simp [emit], rfl⟩
    | true =>
      refine Or.inr ?_
      simp only [Bool.not_true, Bool.false_eq_true, if_false]
      cases ht : env.testMode with
      | true =>
        rw [if_pos rfl]
        unfold pipelineAfterListener
        rw [hp]
        exact ⟨_, rfl, rfl, by unfold PreTrace PreP; decide⟩
      | false =>
        rw [if_neg (show ¬(false = true) by decide)]
        cases hb : env.bind0 with
        | ok =>
          simp only [startStatusServer]
          unfold pipelineAfterListener
          rw [hp]
          exact ⟨_, rfl, rfl, by unfold PreTrace PreP; decide⟩
        | warn =>
          simp only [startStatusServer]
          unfold pipelineAfterListener
          rw [hp]
          exact ⟨_, rfl, rfl, by unfold PreTrace PreP; decide⟩
        | reject =>
          simp only [startStatusServer]
          exact ⟨_, rfl, rfl, by unfold PreTrace PreP; decide⟩
  rcases key with ⟨htb, hshut⟩ | ⟨st, htb, hfl, hpre⟩
  · constructor
    · unfold runMain
      rw [htb]
      show PreTrace [(false, Event.shutdownTimeout)]
      unfold PreTrace PreP
      decide
    · intro hs
      rw [hs] at hshut
      cases hshut
  · obtain ⟨u, htr, hu, hout⟩ := runMain_threw_safe_ext env st htb hfl
    constructor
    · rw [htr]
      refine preTrace_append hpre ?_
      intro p hp2
      obtain ⟨h1, h2, _⟩ := hu p hp2
      obtain ⟨a1, a2⟩ := catchEv_props h2
      exact ⟨h1, a1, a2⟩
    · intro _ hsp
      exact hout hsp

/-! ## C4: the digest gate -/

/-- C4: for any package bytes and any declared digest different from the
md5 of those bytes, parseZipInMemory fails with the integrity error before
any entry is decoded — uniformly in the decompression oracle, which is never
consulted — and the session writes nothing to the managed tree: no
writeFileVerified call is ever made (no write event) and the point of no
return is never passed. -/
theorem c4_digest_gate (env : Env) (hne : env.md5 env.zipBytes ≠ env.expectedMd5) :
    (∀ g, parseZipInMemory env.md5 g env.zipBytes env.expectedMd5 =
      Except.error (ZipErr.integrity env.expectedMd5 (env.md5 env.zipBytes))) ∧
    (∀ p ∈ (runMain env).2.trace, isWriteEv p.2 = false ∧ p.2 ≠ Event.pointOfNoReturn) := by
  have hparse : ∀ g, parseZipInMemory env.md5 g env.zipBytes env.expectedMd5 =
      Except.error (ZipErr.integrity env.expectedMd5 (env.md5 env.zipBytes)) := by
    intro g
    unfold parseZipInMemory
    rw [if_pos hne]
  refine ⟨hparse, ?_⟩
  have hrun := run_parse_error env _ (hparse env.inflate)
  intro p hp
  obtain ⟨_, a1, a2⟩ := hrun.1 p hp
  exact ⟨a2, a1⟩

/-- C4 witness: with the digest "d" of the staged bytes declared as "x",
validation fails with the integrity error. -/
theorem c4_digest_gate_witness :
    envC4.md5 envC4.zipBytes ≠ envC4.expectedMd5 ∧
    parseZipInMemory envC4.md5 envC4.inflate envC4.zipBytes envC4.expectedMd5 =
      Except.error (ZipErr.integrity "x" "d") := by
  refine ⟨by decide, ?_⟩
  exact (c4_digest_gate envC4 (by decide)).1 envC4.inflate

/-! ## C5: structural decode of the staged package -/

/-- C5 counterexample: zipTruncated declares a compressed size of 10 for its
single stored entry but the buffer ends after one data byte (32 bytes
total), so the archive is truncated inside the entry; parseZipInMemory
nevertheless returns ok with the silently clamped one-byte entry, and the
session proceeds through the point of no return, writes the entry and exits
0 — no decode error, no safe-failure path. -/
theorem c5_counterexample :
    read32 zipTruncated 18 = some 10 ∧ zipTruncated.length = 32 ∧
    parseZipInMemory envC5.md5 envC5.inflate envC5.zipBytes envC5.expectedMd5 =
      Except.ok [{ fileName := [97], data := [120] }] ∧
    (runMain envC5).1 = Outcome.exit0 ∧
    (true, Event.pointOfNoReturn) ∈ (runMain envC5).2.trace ∧
    (true, Event.wroteOk [97]) ∈ (runMain envC5).2.trace := by
  refine ⟨by decide, by decide, by decide, by decide, by decide, by decide⟩

set_option linter.unusedVariables false in
/-- C5 (amended): when the in-memory decode of a digest-verified package
does throw — a header-field read past the end of the buffer, an unsupported
compression method, or an inflate failure — the session takes the safe
failure path: the flag never becomes true, nothing is written (no write
event, no point of no return), and when the restart spawn succeeds the
session exits non-zero. A package truncated inside a stored entry's data or
cut between entries, however, decodes without error into the (possibly
clamped) entries found before the cut and the session proceeds to WRITE
with that partial list (see the counterexample). -/
theorem c5_decode_error_safe (env : Env) (e : ZipErr)
    (hmd5 : env.md5 env.zipBytes = env.expectedMd5)
    (hp : parseZipInMemory env.md5 env.inflate env.zipBytes env.expectedMd5 =
      Except.error e) :
    (∀ p ∈ (runMain env).2.trace, p.1 = false ∧ isWriteEv p.2 = false ∧
      p.2 ≠ Event.pointOfNoReturn) ∧
    (env.shutdownOk = true → env.spawnOk = true → (runMain env).1 = Outcome.exit1) := by
  have hrun := run_parse_error env e hp
  refine ⟨?_, hrun.2⟩
  intro p hp2
  obtain ⟨h1, h2, h3⟩ := hrun.1 p hp2
  exact ⟨h1, h3, h2⟩

/-- C5 amended witness: with the unsupported-compression-method package of
zipUnsupported under its correct digest, the session restarts the old
server unchanged and exits 1. -/
theorem c5_decode_error_safe_witness :
    envC5w.md5 envC5w.zipBytes = envC5w.expectedMd5 ∧
    parseZipInMemory envC5w.md5 envC5w.inflate envC5w.zipBytes envC5w.expectedMd5 =
      Except.error (ZipErr.unsupportedMethod 5) ∧
    (runMain envC5w).1 = Outcome.exit1 := by
  refine ⟨by decide, by decide, ?_⟩
  exact (c5_decode_error_safe envC5w (ZipErr.unsupportedMethod 5) (by decide)
    (by decide)).2 (by decide) (by decide)

/-! ## C6: spawn failure and the listener restart -/

/-- C6 counterexample: a safe failure (digest mismatch) whose restart spawn
fails and whose status-server reopen rejects with an error other than
EACCES / EADDRINUSE: the rejection escapes launchServerWithRecovery and
main() entirely, so the process crashes out (Node terminates on the
unhandled rejection) instead of hanging forever — the spawn failed and the
supervisor exited. -/
theorem c6_counterexample :
    runMain envC6 = (Outcome.crash,
      { flag := false, statusServer := true,
        trace := [(false, Event.shutdownDone), (false, Event.listenerStarted),
          (false, Event.fatalLogged), (false, Event.safeRestartMsg),
          (false, Event.listenerStopped), (false, Event.serverSpawnFailed),
          (false, Event.listenerRestartAttempt)] }) ∧
    (false, Event.serverSpawnFailed) ∈ (runMain envC6).2.trace ∧
    (runMain envC6).1 ≠ Outcome.hang := by
  refine ⟨by decide, by decide, by decide⟩

/-- C6 (amended): whenever spawning the new server fails, the supervisor
unconditionally attempts to reopen the Diagnostic Listener (the trace gains
the restart attempt directly after the spawn failure), the listener is never
stopped again (the trace ends with the reopen outcome and the hang state
never returns), and the process hangs forever rather than exiting — provided
the reopen attempt does not itself reject; a rejection (any listen error
other than EACCES / EADDRINUSE) propagates and the process exits instead
(see the counterexample). The listener is actually listening again exactly
when the reopen bound successfully. -/
theorem c6_spawnfail_recovery (env : Env) (s : St) (hspawn : env.spawnOk = false)
    (hrb : env.rebind ≠ BindResult.reject) :
    (∃ s2, launchServerWithRecovery env s = RecResult.hang s2 ∧
      s2.trace = (s.trace ++
          (if s.statusServer then [(s.flag, Event.listenerStopped)] else [])) ++
        [(s.flag, Event.serverSpawnFailed), (s.flag, Event.listenerRestartAttempt),
         (s.flag, if env.rebind = BindResult.ok then Event.listenerStarted
           else Event.listenerBindWarn)] ∧
      (s2.statusServer = true ↔ env.rebind = BindResult.ok)) ∧
    (∀ t, tryBody env = TryResult.threw t → (runMain env).1 = Outcome.hang) ∧
    (∀ t, tryBody env = TryResult.hung t → (runMain env).1 = Outcome.hang) := by
  have hang_eq : ∀ s0 : St, ∃ s2, launchServerWithRecovery env s0 = RecResult.hang s2 ∧
      s2.trace = (s0.trace ++
          (if s0.statusServer then [(s0.flag, Event.listenerStopped)] else [])) ++
        [(s0.flag, Event.serverSpawnFailed), (s0.flag, Event.listenerRestartAttempt),
         (s0.flag, if env.rebind = BindResult.ok then Event.listenerStarted
           else Event.listenerBindWarn)] ∧
      (s2.statusServer = true ↔ env.rebind = BindResult.ok) := by
    intro s0
    cases hrb2 : env.rebind with
    | ok =>
      by_cases hss : s0.statusServer = true
      · refine ⟨emit { (emit (emit (emit { s0 with statusServer := false }
            Event.listenerStopped) Event.serverSpawnFailed)
            Event.listenerRestartAttempt) with statusServer := true }
            Event.listenerStarted, ?_, ?_, ?_⟩
        · simp [launchServerWithRecovery, stopStatusServer, startStatusServer,
            hss, hspawn, hrb2, emit]
        · simp [emit, hss, hrb2]
        · simp [emit]
      · refine ⟨emit { (emit (emit s0 Event.serverSpawnFailed)
            Event.listenerRestartAttempt) with statusServer := true }
            Event.listenerStarted, ?_, ?_, ?_⟩
        · simp [launchServerWithRecovery, stopStatusServer, startStatusServer,
            hss, hspawn, hrb2, emit]
        · simp [emit, hss, hrb2]
        · simp [emit]
    | warn =>
      by_cases hss : s0.statusServer = true
      · refine ⟨emit { (emit (emit (emit { s0 with statusServer := false }
            Event.listenerStopped) Event.serverSpawnFailed)
            Event.listenerRestartAttempt) with statusServer := false }
            Event.listenerBindWarn, ?_, ?_, ?_⟩
        · simp [launchServerWithRecovery, stopStatusServer, startStatusServer,
            hss, hspawn, hrb2, emit]
        · simp [emit, hss, hrb2]
        · simp [emit]
      · refine ⟨emit { (emit (emit s0 Event.serverSpawnFailed)
            Event.listenerRestartAttempt) with statusServer := false }
            Event.listenerBindWarn, ?_, ?_, ?_⟩
        · simp [launchServerWithRecovery, stopStatusServer, startStatusServer,
            hss, hspawn, hrb2, emit]
        · simp [emit, hss, hrb2]
        · simp [emit]
    | reject => exact absurd hrb2 hrb
  refine ⟨hang_eq s, ?_, ?_⟩
  · intro t ht
    unfold runMain
    rw [ht]
    show (if (emit t Event.fatalLogged).flag = true then
        (Outcome.hang, emit (emit t Event.fatalLogged) Event.hangForever)
      else
        match launchServerWithRecovery env
            (emit (emit t Event.fatalLogged) Event.safeRestartMsg) with
        | RecResult.ok s2 => (Outcome.exit1, emit s2 Event.restartedAfterSafeFailure)
        | RecResult.hang s2 => (Outcome.hang, s2)
        | RecResult.threw s2 => (Outcome.crash, s2)).1 = Outcome.hang
    by_cases hft : (emit t Event.fatalLogged).flag = true
    · rw [if_pos hft]
    · rw [if_neg hft]
      obtain ⟨s2, heq, _⟩ := hang_eq (emit (emit t Event.fatalLogged) Event.safeRestartMsg)
      rw [heq]
  · intro t ht
    unfold runMain
    rw [ht]

/-- C6 amended witness: a digest-mismatch session whose restart spawn fails
but whose listener reopen binds: the process hangs. -/
theorem c6_spawnfail_recovery_witness :
    envC6w.spawnOk = false ∧ envC6w.rebind ≠ BindResult.reject ∧
    tryBody envC6w = TryResult.threw stC6w ∧ (runMain envC6w).1 = Outcome.hang := by
  refine ⟨by decide, by decide, by decide, ?_⟩
  exact (c6_spawnfail_recovery envC6w stC6w (by decide) (by decide)).2.1 stC6w (by decide)

/-! ## C7: test mode -/

/-- C7 counterexample: a test-mode session with a valid package whose final
server spawn fails: the recovery path starts the Diagnostic Listener even in
test mode (the trace contains listenerStarted), so the claim that the
listener is never started in a test-mode session with a valid package is
false on this input. -/
theorem c7_counterexample :
    envC7.testMode = true ∧
    parseZipInMemory envC7.md5 envC7.inflate envC7.zipBytes envC7.expectedMd5 =
      Except.ok [{ fileName := [97], data := [120] }] ∧
    (false, Event.listenerStarted) ∈ (runMain envC7).2.trace ∧
    (runMain envC7).1 = Outcome.hang := by
  refine ⟨by decide, by decide, by decide, by decide⟩

theorem launchStep_ext (env : Env) (s : St) :
    (trState (launchStep env s)).flag = s.flag ∧
    ∃ u, (trState (launchStep env s)).trace = s.trace ++ u ∧
      ∀ p ∈ u, p.1 = s.flag ∧ (isRecoveryEv p.2 = true ∨ p.2 = Event.relaunchComplete) ∧
        (env.spawnOk = true → p.2 = Event.listenerStopped ∨ p.2 = Event.serverSpawned ∨
          p.2 = Event.relaunchComplete) := by
  unfold launchStep
  obtain ⟨hfl, u, htr, hu⟩ := recovery_ext env s
  cases hrec : launchServerWithRecovery env s with
  | ok s2 =>
    rw [hrec] at hfl htr
    simp only [recState] at hfl htr
    simp only [trState]
    refine ⟨by simp [emit_flag, hfl], u ++ [(s.flag, Event.relaunchComplete)], ?_, ?_⟩
    · rw [emit_trace, htr, hfl]
      simp [List.append_assoc]
    · intro p hp
      rcases List.mem_append.mp hp with hp1 | hp1
      · obtain ⟨h1, h2, h3⟩ := hu p hp1
        refine ⟨h1, Or.inl h2, fun hsp => ?_⟩
        rcases h3 hsp with h4 | h4
        · exact Or.inl h4
        · exact Or.inr (Or.inl h4)
      · rcases List.mem_singleton.mp hp1 with rfl
        exact ⟨rfl, Or.inr rfl, fun _ => Or.inr (Or.inr rfl)⟩
  | hang s2 =>
    rw [hrec] at hfl htr
    simp only [recState] at hfl htr
    simp only [trState]
    refine ⟨hfl, u, htr, ?_⟩
    intro p hp
    obtain ⟨h1, h2, h3⟩ := hu p hp
    refine ⟨h1, Or.inl h2, fun hsp => ?_⟩
    rcases h3 hsp with h4 | h4
    · exact Or.inl h4
    · exact Or.inr (Or.inl h4)
  | threw s2 =>
    rw [hrec] at hfl htr
    simp only [recState] at hfl htr
    simp only [trState]
    refine ⟨hfl, u, htr, ?_⟩
    intro p hp
    obtain ⟨h1, h2, h3⟩ := hu p hp
    refine ⟨h1, Or.inl h2, fun hsp => ?_⟩
    rcases h3 hsp with h4 | h4
    · exact Or.inl h4
    · exact Or.inr (Or.inl h4)

theorem deploy_test_ext (env : Env) (ht : env.testMode = true) (ni : Bool)
    (entries : List ZipEntry) (s : St) :
    (trState (deployAndLaunch env ni entries s)).flag = s.flag ∧
    ∃ u, (trState (deployAndLaunch env ni entries s)).trace =
      ((s.trace ++ entries.map (fun e => (s.flag, Event.testWouldWrite e.fileName))) ++
        (if ni then [(s.flag, Event.installWouldRun)] else []) ++
        [(s.flag, Event.buildWouldRun)]) ++ u ∧
      ∀ p ∈ u, p.1 = s.flag ∧ (isRecoveryEv p.2 = true ∨ p.2 = Event.relaunchComplete) ∧
        (env.spawnOk = true → p.2 = Event.listenerStopped ∨ p.2 = Event.serverSpawned ∨
          p.2 = Event.relaunchComplete) := by
  set s1 : St := { s with trace := (s.trace ++
    entries.map (fun e => (s.flag, Event.testWouldWrite e.fileName))) } with hs1
  have hfull : deployAndLaunch env ni entries s =
      launchStep env (emit (if ni then emit s1 Event.installWouldRun else s1)
        Event.buildWouldRun) := by
    unfold deployAndLaunch installStep
    rw [if_pos ht]
    cases ni
    · simp [writeLoop_testEq env ht, ht, execStep_test, hs1]
    · simp [writeLoop_testEq env ht, ht, execStep_test, hs1]
  rw [hfull]
  set s2 : St := (if ni then emit s1 Event.installWouldRun else s1) with hs2
  obtain ⟨hfl, u, htr, hu⟩ := launchStep_ext env (emit s2 Event.buildWouldRun)
  have hfl2 : s2.flag = s.flag := by
    cases ni <;> simp [hs2, emit_flag, hs1]
  have htr2 : s2.trace = s1.trace ++
      (if ni then [(s.flag, Event.installWouldRun)] else []) := by
    cases ni <;> simp [hs2, emit_trace, emit_flag, hs1]
  refine ⟨?_, u, ?_, ?_⟩
  · rw [hfl, emit_flag, hfl2]
  · rw [htr, emit_trace, htr2, hfl2]
  · intro p hp
    obtain ⟨h1, h2, h3⟩ := hu p hp
    rw [emit_flag, hfl2] at h1
    exact ⟨h1, h2, h3⟩

theorem runMain_trace_ext (env : Env) :
    ∃ u, (runMain env).2.trace = (trState (tryBody env)).trace ++ u ∧
      ∀ p ∈ u, p.1 = (trState (tryBody env)).flag ∧ (isRecoveryEv p.2 = true ∨
        p.2 = Event.fatalLogged ∨ p.2 = Event.safeRestartMsg ∨
        p.2 = Event.restartedAfterSafeFailure ∨ p.2 = Event.hangForever) ∧
      (env.spawnOk = true → p.2 ≠ Event.listenerStarted ∧
        p.2 ≠ Event.listenerRestartAttempt) := by
  cases htb : tryBody env with
  | completed s =>
    refine ⟨[], ?_, by intro p hp; cases hp⟩
    unfold runMain
    rw [htb]
    simp [trState]
  | exited1 s =>
    refine ⟨[], ?_, by intro p hp; cases hp⟩
    unfold runMain
    rw [htb]
    simp [trState]
  | hung s =>
    refine ⟨[], ?_, by intro p hp; cases hp⟩
    unfold runMain
    rw [htb]
    simp [trState]
  | threw s =>
    simp only [trState]
    by_cases hf : s.flag = true
    · refine ⟨[(s.flag, Event.fatalLogged), (s.flag, Event.hangForever)], ?_, ?_⟩
      · unfold runMain
        rw [htb]
        show (if (emit s Event.fatalLogged).flag = true then
            (Outcome.hang, emit (emit s Event.fatalLogged) Event.hangForever)
          else
            match launchServerWithRecovery env
                (emit (emit s Event.fatalLogged) Event.safeRestartMsg) with
            | RecResult.ok s2 => (Outcome.exit1, emit s2 Event.restartedAfterSafeFailure)
            | RecResult.hang s2 => (Outcome.hang, s2)
            | RecResult.threw s2 => (Outcome.crash, s2)).2.trace = _
        rw [if_pos (show (emit s Event.fatalLogged).flag = true from hf)]
        simp [emit, List.append_assoc]
      · intro p hp
        simp only [List.mem_cons, List.not_mem_nil, or_false] at hp
        rcases hp with rfl | rfl
        · exact ⟨rfl, Or.inr (Or.inl rfl), fun _ => ⟨by simp, by simp⟩⟩
        · exact ⟨rfl, Or.inr (Or.inr (Or.inr (Or.inr rfl))),
            fun _ => ⟨by simp, by simp⟩⟩
    · have hf2 : s.flag = false := by revert hf; cases s.flag <;> simp
      obtain ⟨u, htr, hu, _⟩ := runMain_threw_safe_ext env s htb hf2
      refine ⟨u, htr, ?_⟩
      intro p hp
      obtain ⟨h1, h2, h3⟩ := hu p hp
      rw [hf2]
      refine ⟨h1, ?_, h3⟩
      rcases h2 with h4 | h4 | h4 | h4
      · exact Or.inl h4
      · exact Or.inr (Or.inl h4)
      · exact Or.inr (Or.inr (Or.inl h4))
      · exact Or.inr (Or.inr (Or.inr (Or.inl h4)))

theorem catchU_props {e : Event}
    (h : isRecoveryEv e = true ∨ e = Event.fatalLogged ∨ e = Event.safeRestartMsg ∨
      e = Event.restartedAfterSafeFailure ∨ e = Event.hangForever) :
    isWriteEv e = false ∧ e ≠ Event.pointOfNoReturn ∧ e ≠ Event.installRan ∧
      e ≠ Event.buildRan := by
  rcases h with h | rfl | rfl | rfl | rfl
  · obtain ⟨a1, a2, _, a4, _, a6, _, _⟩ := recoveryEv_props h
    exact ⟨a2, a1, a4, a6⟩
  · simp [isWriteEv]
  · simp [isWriteEv]
  · simp [isWriteEv]
  · simp [isWriteEv]

theorem launchU_props {e : Event}
    (h : isRecoveryEv e = true ∨ e = Event.relaunchComplete) :
    isWriteEv e = false ∧ e ≠ Event.pointOfNoReturn ∧ e ≠ Event.installRan ∧
      e ≠ Event.buildRan := by
  rcases h with h | rfl
  · obtain ⟨a1, a2, _, a4, _, a6, _, _⟩ := recoveryEv_props h
    exact ⟨a2, a1, a4, a6⟩
  · simp [isWriteEv]

/-- C7 (amended): in every test-mode session no managed-tree write is ever
performed (no writeFileVerified call), the point of no return is never
passed, npm install and npm run build are never executed (only their
would-run lines can appear), and the flag stays false throughout; as long as
the final server spawn succeeds the Diagnostic Listener is never started and
its restart is never attempted — but a failed spawn does start it even in
test mode (see the counterexample). With a valid package the simulated
pipeline is really taken: every entry gets its would-write line, the build
would-run line appears, and the install would-run line appears exactly when
the manifest diff asked for the install. -/
theorem c7_testMode_simulation (env : Env) (ht : env.testMode = true) :
    (∀ p ∈ (runMain env).2.trace, p.1 = false ∧ isWriteEv p.2 = false ∧
      p.2 ≠ Event.pointOfNoReturn ∧ p.2 ≠ Event.installRan ∧ p.2 ≠ Event.buildRan) ∧
    (env.spawnOk = true → ∀ p ∈ (runMain env).2.trace,
      p.2 ≠ Event.listenerStarted ∧ p.2 ≠ Event.listenerRestartAttempt) ∧
    (∀ entries, env.shutdownOk = true →
      parseZipInMemory env.md5 env.inflate env.zipBytes env.expectedMd5 =
        Except.ok entries →
      (∀ e ∈ entries, (false, Event.testWouldWrite e.fileName) ∈ (runMain env).2.trace) ∧
      (false, Event.buildWouldRun) ∈ (runMain env).2.trace ∧
      (packageJsonChangedInZip entries env.diskPackageJson = true →
        (false, Event.installWouldRun) ∈ (runMain env).2.trace)) := by
  obtain ⟨u2, htr2, hu2⟩ := runMain_trace_ext env
  cases hs : env.shutdownOk with
  | false =>
    have htb : tryBody env =
        TryResult.exited1 (emit { flag := false, statusServer := false, trace := [] }
          Event.shutdownTimeout) := by
      unfold tryBody
      rw [hs]
      rfl
    rw [htb] at htr2 hu2
    simp only [trState, emit_trace, emit_flag, List.nil_append] at htr2 hu2
    refine ⟨?_, ?_, ?_⟩
    · intro p hp
      rw [htr2] at hp
      rcases List.mem_append.mp hp with hp1 | hp1
      · rcases List.mem_singleton.mp hp1 with rfl
        exact ⟨rfl, rfl, by decide, by decide, by decide⟩
      · obtain ⟨h1, h2, _⟩ := hu2 p hp1
        obtain ⟨a1, a2, a3, a4⟩ := catchU_props h2
        exact ⟨h1, a1, a2, a3, a4⟩
    · intro hsp p hp
      rw [htr2] at hp
      rcases List.mem_append.mp hp with hp1 | hp1
      · rcases List.mem_singleton.mp hp1 with rfl
        exact ⟨by decide, by decide⟩
      · exact (hu2 p hp1).2.2 hsp
    · intro entries hsh _
      simp [hs] at hsh
  | true =>
    have htb : tryBody env = pipelineAfterListener env
        (emit (emit { flag := false, statusServer := false, trace := [] }
          Event.shutdownDone) Event.listenerSkippedTest) := by
      unfold tryBody
      rw [hs]
      rw [if_neg (by decide), if_pos ht]
    cases hp : parseZipInMemory env.md5 env.inflate env.zipBytes env.expectedMd5 with
    | error e =>
      have htb2 : tryBody env = TryResult.threw
          (emit (emit { flag := false, statusServer := false, trace := [] }
            Event.shutdownDone) Event.listenerSkippedTest) := by
        rw [htb]
        unfold pipelineAfterListener
        rw [hp]
      rw [htb2] at htr2 hu2
      simp only [trState, emit_trace, emit_flag, List.nil_append] at htr2 hu2
      refine ⟨?_, ?_, ?_⟩
      · intro p hp2
        rw [htr2] at hp2
        rcases List.mem_append.mp hp2 with hp1 | hp1
        · simp only [List.mem_append, List.mem_singleton] at hp1
          rcases hp1 with rfl | rfl
          · exact ⟨rfl, rfl, by decide, by decide, by decide⟩
          · exact ⟨rfl, rfl, by decide, by decide, by decide⟩
        · obtain ⟨h1, h2, _⟩ := hu2 p hp1
          obtain ⟨a1, a2, a3, a4⟩ := catchU_props h2
          exact ⟨h1, a1, a2, a3, a4⟩
      · intro hsp p hp2
        rw [htr2] at hp2
        rcases List.mem_append.mp hp2 with hp1 | hp1
        · simp only [List.mem_append, List.mem_singleton] at hp1
          rcases hp1 with rfl | rfl
          · exact ⟨by decide, by decide⟩
          · exact ⟨by decide, by decide⟩
        · exact (hu2 p hp1).2.2 hsp
      · intro entries _ hpok
        simp at hpok
    | ok entries =>
      have htb2 : tryBody env = deployAndLaunch env
          (packageJsonChangedInZip entries env.diskPackageJson) entries
          (emit (emit (emit (emit { flag := false, statusServer := false, trace := [] }
            Event.shutdownDone) Event.listenerSkippedTest)
            (Event.parsed entries.length))
            (Event.diffChecked (packageJsonChangedInZip entries env.diskPackageJson))) := by
        rw [htb]
        unfold pipelineAfterListener
        rw [hp]
      obtain ⟨hfl3, u3, htr3, hu3⟩ := deploy_test_ext env ht
        (packageJsonChangedInZip entries env.diskPackageJson) entries
        (emit (emit (emit (emit { flag := false, statusServer := false, trace := [] }
          Event.shutdownDone) Event.listenerSkippedTest)
          (Event.parsed entries.length))
          (Event.diffChecked (packageJsonChangedInZip entries env.diskPackageJson)))
      rw [← htb2] at hfl3 htr3
      rw [htr3] at htr2
      simp only [emit_trace, emit_flag, List.nil_append, List.append_assoc] at htr2 hu3
      rw [hfl3] at hu2
      simp only [emit_flag] at hu2
      have hall : ∀ p ∈ (runMain env).2.trace,
          (p.1 = false ∧ isWriteEv p.2 = false ∧ p.2 ≠ Event.pointOfNoReturn ∧
            p.2 ≠ Event.installRan ∧ p.2 ≠ Event.buildRan) ∧
          (env.spawnOk = true → p.2 ≠ Event.listenerStarted ∧
            p.2 ≠ Event.listenerRestartAttempt) := by
        intro p hp2
        rw [htr2] at hp2
        rcases List.mem_append.mp hp2 with h | hp2
        · rcases List.mem_singleton.mp h with rfl
          exact ⟨⟨rfl, rfl, by simp, by simp, by simp⟩,
            fun _ => ⟨by simp, by simp⟩⟩
        rcases List.mem_append.mp hp2 with h | hp2
        · rcases List.mem_singleton.mp h with rfl
          exact ⟨⟨rfl, rfl, by simp, by simp, by simp⟩,
            fun _ => ⟨by simp, by simp⟩⟩
        rcases List.mem_append.mp hp2 with h | hp2
        · rcases List.mem_singleton.mp h with rfl
          exact ⟨⟨rfl, rfl, by simp, by simp, by simp⟩,
            fun _ => ⟨by simp, by simp⟩⟩
        rcases List.mem_append.mp hp2 with h | hp2
        · rcases List.mem_singleton.mp h with rfl
          exact ⟨⟨rfl, rfl, by simp, by simp, by simp⟩,
            fun _ => ⟨by simp, by simp⟩⟩
        rcases List.mem_append.mp hp2 with h | hp2
        · obtain ⟨e2, _, rfl⟩ := List.mem_map.mp h
          exact ⟨⟨rfl, rfl, by simp, by simp, by simp⟩, fun _ => ⟨by simp, by simp⟩⟩
        rcases List.mem_append.mp hp2 with h | hp2
        · by_cases hni : packageJsonChangedInZip entries env.diskPackageJson = true
          · rw [if_pos hni] at h
            rcases List.mem_singleton.mp h with rfl
            exact ⟨⟨rfl, rfl, by simp, by simp, by simp⟩, fun _ => ⟨by simp, by simp⟩⟩
          · rw [if_neg hni] at h
            cases h
        rcases List.mem_append.mp hp2 with h | hp2
        · rcases List.mem_singleton.mp h with rfl
          exact ⟨⟨rfl, rfl, by simp, by simp, by simp⟩,
            fun _ => ⟨by simp, by simp⟩⟩
        rcases List.mem_append.mp hp2 with h | hp2
        · obtain ⟨h1, h2, h3⟩ := hu3 p h
          obtain ⟨a1, a2, a3, a4⟩ := launchU_props h2
          refine ⟨⟨h1, a1, a2, a3, a4⟩, fun hsp => ?_⟩
          rcases h3 hsp with h4 | h4 | h4 <;> rw [h4] <;> exact ⟨by simp, by simp⟩
        · obtain ⟨h1, h2, h3⟩ := hu2 p hp2
          obtain ⟨a1, a2, a3, a4⟩ := catchU_props h2
          exact ⟨⟨h1, a1, a2, a3, a4⟩, h3⟩
      refine ⟨fun p hp2 => (hall p hp2).1, fun hsp p hp2 => (hall p hp2).2 hsp, ?_⟩
      intro entries2 _ hpok
      injection hpok with hent
      subst hent
      refine ⟨?_, ?_, ?_⟩
      · intro e2 he2
        rw [htr2]
        refine List.mem_append.mpr (Or.inr (List.mem_append.mpr (Or.inr
          (List.mem_append.mpr (Or.inr (List.mem_append.mpr (Or.inr
          (List.mem_append.mpr (Or.inl ?_)))))))))
        exact List.mem_map.mpr ⟨e2, he2, rfl⟩
      · rw [htr2]
        refine List.mem_append.mpr (Or.inr (List.mem_append.mpr (Or.inr
          (List.mem_append.mpr (Or.inr (List.mem_append.mpr (Or.inr
          (List.mem_append.mpr (Or.inr (List.mem_append.mpr (Or.inr
          (List.mem_append.mpr (Or.inl ?_)))))))))))))
        exact List.mem_singleton.mpr rfl
      · intro hni
        rw [htr2]
        refine List.mem_append.mpr (Or.inr (List.mem_append.mpr (Or.inr
          (List.mem_append.mpr (Or.inr (List.mem_append.mpr (Or.inr
          (List.mem_append.mpr (Or.inr (List.mem_append.mpr (Or.inl ?_)))))))))))
        rw [if_pos hni]
        exact List.mem_singleton.mpr rfl

theorem catchU_no_install {e : Event}
    (h : isRecoveryEv e = true ∨ e = Event.fatalLogged ∨ e = Event.safeRestartMsg ∨
      e = Event.restartedAfterSafeFailure ∨ e = Event.hangForever) :
    e ≠ Event.installRan ∧ e ≠ Event.installWouldRun := by
  rcases h with h | rfl | rfl | rfl | rfl
  · obtain ⟨_, _, _, a4, a5, _, _, _⟩ := recoveryEv_props h
    exact ⟨a4, a5⟩
  · exact ⟨by decide, by decide⟩
  · exact ⟨by decide, by decide⟩
  · exact ⟨by decide, by decide⟩
  · exact ⟨by decide, by decide⟩

theorem launchU_no_install {e : Event}
    (h : isRecoveryEv e = true ∨ e = Event.relaunchComplete) :
    e ≠ Event.installRan ∧ e ≠ Event.installWouldRun := by
  rcases h with h | rfl
  · obtain ⟨_, _, _, a4, a5, _, _, _⟩ := recoveryEv_props h
    exact ⟨a4, a5⟩
  · exact ⟨by decide, by decide⟩

theorem deploy_real_ext (env : Env) (ht : env.testMode = false) (ni : Bool)
    (entries : List ZipEntry) (s : St) :
    ∃ u, (trState (deployAndLaunch env ni entries s)).trace =
      ((s.trace ++ [(true, Event.pointOfNoReturn)]) ++
        entries.map (fun e => (true, writeEvFor env e))) ++ u ∧
      (∀ p ∈ u, p.1 = true ∧ (p.2 = Event.installWouldRun ∨ p.2 = Event.installRan ∨
        p.2 = Event.buildWouldRun ∨ p.2 = Event.buildRan ∨ isRecoveryEv p.2 = true ∨
        p.2 = Event.relaunchComplete) ∧
        (ni = false → p.2 ≠ Event.installRan ∧ p.2 ≠ Event.installWouldRun)) ∧
      ((∀ e ∈ entries, (writeFileVerified (env.fsFor e.fileName) e.data).ok = true) →
        ni = true →
        (true, Event.installRan) ∈ (trState (deployAndLaunch env ni entries s)).trace) := by
  have hkey : deployAndLaunch env ni entries s =
      (if (writeLoop env entries (emit { s with flag := true } Event.pointOfNoReturn)).2 > 0
       then TryResult.threw
         (writeLoop env entries (emit { s with flag := true } Event.pointOfNoReturn)).1
       else
        match installStep env ni
          (writeLoop env entries (emit { s with flag := true } Event.pointOfNoReturn)).1 with
        | Except.error s2 => TryResult.threw s2
        | Except.ok s2 =>
          match execStep env.testMode env.buildOk Event.buildWouldRun Event.buildRan s2 with
          | Except.error s3 => TryResult.threw s3
          | Except.ok s3 => launchStep env s3) := by
    unfold deployAndLaunch
    rw [if_neg (show ¬(env.testMode = true) by simp [ht])]
  have hwtr : (writeLoop env entries
      (emit { s with flag := true } Event.pointOfNoReturn)).1.trace =
      ((s.trace ++ [(true, Event.pointOfNoReturn)]) ++
        entries.map (fun e => (true, writeEvFor env e))) := by
    rw [writeLoop_realEq env ht]
    rfl
  have hwfl : (writeLoop env entries
      (emit { s with flag := true } Event.pointOfNoReturn)).1.flag = true := by
    rw [writeLoop_realEq env ht]
    rfl
  rw [hkey]
  by_cases hfail :
      (writeLoop env entries (emit { s with flag := true } Event.pointOfNoReturn)).2 > 0
  · rw [if_pos hfail]
    refine ⟨[], ?_, ?_, ?_⟩
    · simp only [trState]
      rw [hwtr, List.append_nil]
    · intro p hp
      cases hp
    · intro hok _
      exfalso
      have hz : (writeLoop env entries
          (emit { s with flag := true } Event.pointOfNoReturn)).2 = 0 := by
        rw [writeLoop_realEq env ht]
        simp only []
        rw [List.countP_eq_zero]
        intro e he
        simp [hok e he]
      rw [hz] at hfail
      cases hfail
  · rw [if_neg hfail]
    set wl1 : St :=
      (writeLoop env entries (emit { s with flag := true } Event.pointOfNoReturn)).1 with hwl1
    cases ni with
    | false =>
      have hi : installStep env false wl1 = Except.ok wl1 := rfl
      cases hbo : env.buildOk with
      | false =>
        have hb : execStep env.testMode false Event.buildWouldRun Event.buildRan wl1 =
            Except.error (emit wl1 Event.buildRan) := by
          rw [ht]
          exact execStep_real_err _ _ _
        simp only [hi, hb]
        refine ⟨[(true, Event.buildRan)], ?_, ?_, ?_⟩
        · simp only [trState, emit_trace]
          rw [hwtr, hwfl]
        · intro p hp
          rcases List.mem_singleton.mp hp with rfl
          exact ⟨rfl, Or.inr (Or.inr (Or.inr (Or.inl rfl))),
            fun _ => ⟨by decide, by decide⟩⟩
        · intro _ h
          cases h
      | true =>
        have hb : execStep env.testMode true Event.buildWouldRun Event.buildRan wl1 =
            Except.ok (emit wl1 Event.buildRan) := by
          rw [ht]
          exact execStep_real_ok _ _ _
        simp only [hi, hb]
        obtain ⟨hlfl, ul, hltr, hlu⟩ := launchStep_ext env (emit wl1 Event.buildRan)
        refine ⟨[(true, Event.buildRan)] ++ ul, ?_, ?_, ?_⟩
        · rw [hltr, emit_trace, hwtr, hwfl]
          simp [List.append_assoc]
        · intro p hp
          rcases List.mem_append.mp hp with hp1 | hp1
          · rcases List.mem_singleton.mp hp1 with rfl
            exact ⟨rfl, Or.inr (Or.inr (Or.inr (Or.inl rfl))),
              fun _ => ⟨by decide, by decide⟩⟩
          · obtain ⟨h1, h2, _⟩ := hlu p hp1
            rw [emit_flag, hwfl] at h1
            obtain ⟨a4, a5⟩ := launchU_no_install h2
            refine ⟨h1, ?_, fun _ => ⟨a4, a5⟩⟩
            rcases h2 with h3 | h3
            · exact Or.inr (Or.inr (Or.inr (Or.inr (Or.inl h3))))
            · exact Or.inr (Or.inr (Or.inr (Or.inr (Or.inr h3))))
        · intro _ h
          cases h
    | true =>
      cases hio : env.installOk with
      | false =>
        have hi : installStep env true wl1 = Except.error (emit wl1 Event.installRan) := by
          unfold installStep
          rw [if_pos rfl, ht, hio]
          exact execStep_real_err _ _ _
        simp only [hi]
        refine ⟨[(true, Event.installRan)], ?_, ?_, ?_⟩
        · simp only [trState, emit_trace]
          rw [hwtr, hwfl]
        · intro p hp
          rcases List.mem_singleton.mp hp with rfl
          exact ⟨rfl, Or.inr (Or.inl rfl), fun h => by cases h⟩
        · intro _ _
          simp only [trState, emit_trace]
          rw [hwfl]
          exact List.mem_append.mpr (Or.inr (List.mem_singleton.mpr rfl))
      | true =>
        have hi : installStep env true wl1 = Except.ok (emit wl1 Event.installRan) := by
          unfold installStep
          rw [if_pos rfl, ht, hio]
          exact execStep_real_ok _ _ _
        simp only [hi]
        cases hbo : env.buildOk with
        | false =>
          have hb : execStep env.testMode false Event.buildWouldRun Event.buildRan
              (emit wl1 Event.installRan) =
              Except.error (emit (emit wl1 Event.installRan) Event.buildRan) := by
            rw [ht]
            exact execStep_real_err _ _ _
          simp only [hb]
          refine ⟨[(true, Event.installRan), (true, Event.buildRan)], ?_, ?_, ?_⟩
          · simp only [trState, emit_trace, emit_flag]
            rw [hwtr, hwfl]
            simp [List.append_assoc]
          · intro p hp
            simp only [List.mem_cons, List.not_mem_nil, or_false] at hp
            rcases hp with rfl | rfl
            · exact ⟨rfl, Or.inr (Or.inl rfl), fun h => by cases h⟩
            · exact ⟨rfl, Or.inr (Or.inr (Or.inr (Or.inl rfl))), fun h => by cases h⟩
          · intro _ _
            simp only [trState, emit_trace, emit_flag]
            rw [hwfl]
            exact List.mem_append.mpr (Or.inl (List.mem_append.mpr (Or.inr
              (List.mem_singleton.mpr rfl))))
        | true =>
          have hb : execStep env.testMode true Event.buildWouldRun Event.buildRan
              (emit wl1 Event.installRan) =
              Except.ok (emit (emit wl1 Event.installRan) Event.buildRan) := by
            rw [ht]
            exact execStep_real_ok _ _ _
          simp only [hb]
          obtain ⟨hlfl, ul, hltr, hlu⟩ :=
            launchStep_ext env (emit (emit wl1 Event.installRan) Event.buildRan)
          refine ⟨[(true, Event.installRan), (true, Event.buildRan)] ++ ul, ?_, ?_, ?_⟩
          · rw [hltr, emit_trace, emit_trace, emit_flag, hwtr, hwfl]
            simp [List.append_assoc]
          · intro p hp
            rcases List.mem_append.mp hp with hp1 | hp1
            · simp only [List.mem_cons, List.not_mem_nil, or_false] at hp1
              rcases hp1 with rfl | rfl
              · exact ⟨rfl, Or.inr (Or.inl rfl), fun h => by cases h⟩
              · exact ⟨rfl, Or.inr (Or.inr (Or.inr (Or.inl rfl))), fun h => by cases h⟩
            · obtain ⟨h1, h2, _⟩ := hlu p hp1
              rw [emit_flag, emit_flag, hwfl] at h1
              obtain ⟨a4, a5⟩ := launchU_no_install h2
              refine ⟨h1, ?_, fun _ => ⟨a4, a5⟩⟩
              rcases h2 with h3 | h3
              · exact Or.inr (Or.inr (Or.inr (Or.inr (Or.inl h3))))
              · exact Or.inr (Or.inr (Or.inr (Or.inr (Or.inr h3))))
          · intro _ _
            rw [hltr, emit_trace, emit_trace, emit_flag, hwfl]
            refine List.mem_append.mpr (Or.inl ?_)
            exact List.mem_append.mpr (Or.inl (List.mem_append.mpr (Or.inr
              (List.mem_singleton.mpr rfl))))

/-- C7 witness: in the simulated (test-mode) session over a package whose
single entry is a top-level package.json, the trace records the would-write,
the would-build and, since the disk copy differs, the would-install. -/
theorem c7_testMode_simulation_witness :
    envC7w.testMode = true ∧
    (false, Event.testWouldWrite pkgJsonBytes) ∈ (runMain envC7w).2.trace ∧
    (false, Event.buildWouldRun) ∈ (runMain envC7w).2.trace ∧
    (false, Event.installWouldRun) ∈ (runMain envC7w).2.trace := by
  refine ⟨by decide, ?_, ?_, ?_⟩
  · exact ((c7_testMode_simulation envC7w (by decide)).2.2
      [{ fileName := pkgJsonBytes, data := [120] }] (by decide) (by decide)).1
      { fileName := pkgJsonBytes, data := [120] } (by decide)
  · exact ((c7_testMode_simulation envC7w (by decide)).2.2
      [{ fileName := pkgJsonBytes, data := [120] }] (by decide) (by decide)).2.1
  · exact ((c7_testMode_simulation envC7w (by decide)).2.2
      [{ fileName := pkgJsonBytes, data := [120] }] (by decide) (by decide)).2.2 (by decide)

theorem writeEvFor_no_install (env : Env) (e : ZipEntry) :
    writeEvFor env e ≠ Event.installRan ∧ writeEvFor env e ≠ Event.installWouldRun := by
  unfold writeEvFor
  by_cases h : (writeFileVerified (env.fsFor e.fileName) e.data).ok = true
  · rw [if_pos h]
    exact ⟨by simp, by simp⟩
  · rw [if_neg h]
    exact ⟨by simp, by simp⟩

theorem tryBody_no_install (env : Env) (entries : List ZipEntry)
    (hp : parseZipInMemory env.md5 env.inflate env.zipBytes env.expectedMd5 =
      Except.ok entries)
    (hd : packageJsonChangedInZip entries env.diskPackageJson = false) :
    ∀ p ∈ (trState (tryBody env)).trace,
      p.2 ≠ Event.installRan ∧ p.2 ≠ Event.installWouldRun := by
  cases hs : env.shutdownOk with
  | false =>
    have htb : tryBody env =
        TryResult.exited1 (emit { flag := false, statusServer := false, trace := [] }
          Event.shutdownTimeout) := by
      unfold tryBody
      rw [hs]
      rfl
    rw [htb]
    intro p hp2
    simp only [trState, emit_trace, List.nil_append] at hp2
    rcases List.mem_singleton.mp hp2 with rfl
    exact ⟨by simp, by simp⟩
  | true =>
    cases ht : env.testMode with
    | true =>
      have htb2 : tryBody env = deployAndLaunch env
          (packageJsonChangedInZip entries env.diskPackageJson) entries
          (emit (emit (emit (emit { flag := false, statusServer := false, trace := [] }
            Event.shutdownDone) Event.listenerSkippedTest)
            (Event.parsed entries.length))
            (Event.diffChecked (packageJsonChangedInZip entries env.diskPackageJson))) := by
        unfold tryBody
        rw [hs]
        rw [if_neg (by decide), if_pos ht]
        unfold pipelineAfterListener
        rw [hp]
      rw [hd] at htb2
      obtain ⟨hfl3, u3, htr3, hu3⟩ := deploy_test_ext env ht false entries
        (emit (emit (emit (emit { flag := false, statusServer := false, trace := [] }
          Event.shutdownDone) Event.listenerSkippedTest)
          (Event.parsed entries.length))
          (Event.diffChecked false))
      rw [← htb2] at htr3
      rw [if_neg (show ¬(false = true) by decide)] at htr3
      simp only [emit_trace, emit_flag, List.nil_append, List.append_nil,
        List.append_assoc] at htr3
      intro p hp2
      rw [htr3] at hp2
      rcases List.mem_append.mp hp2 with h | hp2
      · rcases List.mem_singleton.mp h with rfl
        exact ⟨by simp, by simp⟩
      rcases List.mem_append.mp hp2 with h | hp2
      · rcases List.mem_singleton.mp h with rfl
        exact ⟨by simp, by simp⟩
      rcases List.mem_append.mp hp2 with h | hp2
      · rcases List.mem_singleton.mp h with rfl
        exact ⟨by simp, by simp⟩
      rcases List.mem_append.mp hp2 with h | hp2
      · rcases List.mem_singleton.mp h with rfl
        exact ⟨by simp, by simp⟩
      rcases List.mem_append.mp hp2 with h | hp2
      · obtain ⟨e2, _, rfl⟩ := List.mem_map.mp h
        exact ⟨by simp, by simp⟩
      rcases List.mem_append.mp hp2 with h | hp2
      · rcases List.mem_singleton.mp h with rfl
        exact ⟨by simp, by simp⟩
      · exact launchU_no_install (hu3 p hp2).2.1
    | false =>
      cases hb : env.bind0 with
      | reject =>
        have htb : tryBody env = TryResult.threw
            { flag := false, statusServer := true,
              trace := [(false, Event.shutdownDone)] } := by
          unfold tryBody
          rw [hs, ht, hb]
          rfl
        rw [htb]
        intro p hp2
        simp only [trState] at hp2
        rcases List.mem_singleton.mp hp2 with rfl
        exact ⟨by simp, by simp⟩
      | ok =>
        have htb2 : tryBody env = deployAndLaunch env
            (packageJsonChangedInZip entries env.diskPackageJson) entries
            (emit (emit (emit
              { flag := false, statusServer := true,
                trace := [(false, Event.shutdownDone)] } Event.listenerStarted)
              (Event.parsed entries.length))
              (Event.diffChecked (packageJsonChangedInZip entries env.diskPackageJson))) := by
          unfold tryBody
          rw [hs, ht, hb]
          unfold pipelineAfterListener
          rw [hp]
          rfl
        rw [hd] at htb2
        obtain ⟨u3, htr3, hu3, _⟩ := deploy_real_ext env ht false entries
          (emit (emit (emit
            { flag := false, statusServer := true,
              trace := [(false, Event.shutdownDone)] } Event.listenerStarted)
            (Event.parsed entries.length))
            (Event.diffChecked false))
        rw [← htb2] at htr3
        simp only [emit_trace, emit_flag, List.nil_append, List.append_assoc] at htr3
        intro p hp2
        rw [htr3] at hp2
        rcases List.mem_append.mp hp2 with h | hp2
        · rcases List.mem_singleton.mp h with rfl
          exact ⟨by simp, by simp⟩
        rcases List.mem_append.mp hp2 with h | hp2
        · rcases List.mem_singleton.mp h with rfl
          exact ⟨by simp, by simp⟩
        rcases List.mem_append.mp hp2 with h | hp2
        · rcases List.mem_singleton.mp h with rfl
          exact ⟨by simp, by simp⟩
        rcases List.mem_append.mp hp2 with h | hp2
        · rcases List.mem_singleton.mp h with rfl
          exact ⟨by simp, by simp⟩
        rcases List.mem_append.mp hp2 with h | hp2
        · rcases List.mem_singleton.mp h with rfl
          exact ⟨by simp, by simp⟩
        rcases List.mem_append.mp hp2 with h | hp2
        · obtain ⟨e2, _, rfl⟩ := List.mem_map.mp h
          exact writeEvFor_no_install env e2
        · exact (hu3 p hp2).2.2 rfl
      | warn =>
        have htb2 : tryBody env = deployAndLaunch env
            (packageJsonChangedInZip entries env.diskPackageJson) entries
            (emit (emit (emit
              { flag := false, statusServer := false,
                trace := [(false, Event.shutdownDone)] } Event.listenerBindWarn)
              (Event.parsed entries.length))
              (Event.diffChecked (packageJsonChangedInZip entries env.diskPackageJson))) := by
          unfold tryBody
          rw [hs, ht, hb]
          unfold pipelineAfterListener
          rw [hp]
          rfl
        rw [hd] at htb2
        obtain ⟨u3, htr3, hu3, _⟩ := deploy_real_ext env ht false entries
          (emit (emit (emit
            { flag := false, statusServer := false,
              trace := [(false, Event.shutdownDone)] } Event.listenerBindWarn)
            (Event.parsed entries.length))
            (Event.diffChecked false))
        rw [← htb2] at htr3
        simp only [emit_trace, emit_flag, List.nil_append, List.append_assoc] at htr3
        intro p hp2
        rw [htr3] at hp2
        rcases List.mem_append.mp hp2 with h | hp2
        · rcases List.mem_singleton.mp h with rfl
          exact ⟨by simp, by simp⟩
        rcases List.mem_append.mp hp2 with h | hp2
        · rcases List.mem_singleton.mp h with rfl
          exact ⟨by simp, by simp⟩
        rcases List.mem_append.mp hp2 with h | hp2
        · rcases List.mem_singleton.mp h with rfl
          exact ⟨by simp, by simp⟩
        rcases List.mem_append.mp hp2 with h | hp2
        · rcases List.mem_singleton.mp h with rfl
          exact ⟨by simp, by simp⟩
        rcases List.mem_append.mp hp2 with h | hp2
        · rcases List.mem_singleton.mp h with rfl
          exact ⟨by simp, by simp⟩
        rcases List.mem_append.mp hp2 with h | hp2
        · obtain ⟨e2, _, rfl⟩ := List.mem_map.mp h
          exact writeEvFor_no_install env e2
        · exact (hu3 p hp2).2.2 rfl

/-- C10: the manifest diff check (packageJsonChangedInZip, relaunch.ts
326-337) returns false for every package without a top-level package.json
entry, and then no session ever runs (or even simulates) the
dependency-install step; it returns true whenever the package carries a
package.json while none exists on disk, and a real-mode session that
observes the shutdown, binds or tolerates the listener port, and writes
every entry successfully then runs npm install (relaunch.ts 416-424). -/
theorem c10_manifest_diff (env : Env) (entries : List ZipEntry) :
    ((∀ e ∈ entries, e.fileName ≠ pkgJsonBytes) →
      packageJsonChangedInZip entries env.diskPackageJson = false) ∧
    ((∃ e ∈ entries, e.fileName = pkgJsonBytes) → env.diskPackageJson = none →
      packageJsonChangedInZip entries env.diskPackageJson = true) ∧
    (parseZipInMemory env.md5 env.inflate env.zipBytes env.expectedMd5 =
        Except.ok entries →
      packageJsonChangedInZip entries env.diskPackageJson = false →
      ∀ p ∈ (runMain env).2.trace,
        p.2 ≠ Event.installRan ∧ p.2 ≠ Event.installWouldRun) ∧
    (parseZipInMemory env.md5 env.inflate env.zipBytes env.expectedMd5 =
        Except.ok entries →
      packageJsonChangedInZip entries env.diskPackageJson = true →
      env.testMode = false → env.shutdownOk = true →
      env.bind0 ≠ BindResult.reject →
      (∀ e ∈ entries, (writeFileVerified (env.fsFor e.fileName) e.data).ok = true) →
      (true, Event.installRan) ∈ (runMain env).2.trace) := by
  refine ⟨?_, ?_, ?_, ?_⟩
  · intro hno
    unfold packageJsonChangedInZip
    cases hf : entries.find? (fun e => e.fileName == pkgJsonBytes) with
    | none => rfl
    | some a =>
      exfalso
      have h1 := List.find?_some hf
      exact hno a (List.mem_of_find?_eq_some hf) (by simpa using h1)
  · intro hex hdisk
    unfold packageJsonChangedInZip
    cases hf : entries.find? (fun e => e.fileName == pkgJsonBytes) with
    | none =>
      exfalso
      obtain ⟨e, he, heq⟩ := hex
      have h1 := List.find?_eq_none.mp hf e he
      simp [heq] at h1
    | some a =>
      rw [hdisk]
  · intro hp hd p hpmem
    obtain ⟨u2, htr2, hu2⟩ := runMain_trace_ext env
    rw [htr2] at hpmem
    rcases List.mem_append.mp hpmem with hp1 | hp1
    · exact tryBody_no_install env entries hp hd p hp1
    · exact catchU_no_install (hu2 p hp1).2.1
  · intro hp hd ht hs hbind hwr
    obtain ⟨u2, htr2, hu2⟩ := runMain_trace_ext env
    rw [htr2]
    refine List.mem_append.mpr (Or.inl ?_)
    cases hb : env.bind0 with
    | reject => exact absurd hb hbind
    | ok =>
      have htb2 : tryBody env = deployAndLaunch env
          (packageJsonChangedInZip entries env.diskPackageJson) entries
          (emit (emit (emit
            { flag := false, statusServer := true,
              trace := [(false, Event.shutdownDone)] } Event.listenerStarted)
            (Event.parsed entries.length))
            (Event.diffChecked (packageJsonChangedInZip entries env.diskPackageJson))) := by
        unfold tryBody
        rw [hs, ht, hb]
        unfold pipelineAfterListener
        rw [hp]
        rfl
      rw [hd] at htb2
      obtain ⟨u3, htr3, hu3, hpos⟩ := deploy_real_ext env ht true entries
        (emit (emit (emit
          { flag := false, statusServer := true,
            trace := [(false, Event.shutdownDone)] } Event.listenerStarted)
          (Event.parsed entries.length))
          (Event.diffChecked true))
      have hmem := hpos hwr rfl
      rw [← htb2] at hmem
      exact hmem
    | warn =>
      have htb2 : tryBody env = deployAndLaunch env
          (packageJsonChangedInZip entries env.diskPackageJson) entries
          (emit (emit (emit
            { flag := false, statusServer := false,
              trace := [(false, Event.shutdownDone)] } Event.listenerBindWarn)
            (Event.parsed entries.length))
            (Event.diffChecked (packageJsonChangedInZip entries env.diskPackageJson))) := by
        unfold tryBody
        rw [hs, ht, hb]
        unfold pipelineAfterListener
        rw [hp]
        rfl
      rw [hd] at htb2
      obtain ⟨u3, htr3, hu3, hpos⟩ := deploy_real_ext env ht true entries
        (emit (emit (emit
          { flag := false, statusServer := false,
            trace := [(false, Event.shutdownDone)] } Event.listenerBindWarn)
          (Event.parsed entries.length))
          (Event.diffChecked true))
      have hmem := hpos hwr rfl
      rw [← htb2] at hmem
      exact hmem

/-- C10 witness: a package without package.json diffs false, while envC10's
package (a top-level package.json with none on disk) diffs true and its
real-mode session runs the install step. -/
theorem c10_manifest_diff_witness :
    packageJsonChangedInZip [{ fileName := [97], data := [120] }]
      baseEnv.diskPackageJson = false ∧
    packageJsonChangedInZip [{ fileName := pkgJsonBytes, data := [120] }]
      envC10.diskPackageJson = true ∧
    (true, Event.installRan) ∈ (runMain envC10).2.trace := by
  refine ⟨?_, ?_, ?_⟩
  · exact (c10_manifest_diff baseEnv [{ fileName := [97], data := [120] }]).1 (by decide)
  · exact (c10_manifest_diff envC10 [{ fileName := pkgJsonBytes, data := [120] }]).2.1
      (by decide) (by decide)
  · exact (c10_manifest_diff envC10 [{ fileName := pkgJsonBytes, data := [120] }]).2.2.2
      (by decide) (by decide) (by decide) (by decide) (by decide) (by decide)
